import Mathlib

/-!
# Bilinear interpolation on a regular 2D grid (`GteIntpBilinear2.inl`)

A shallow embedding of `IntpBilinear2<Real>` from
`GTEngine/Include/GteIntpBilinear2.inl`.

Modelling conventions:

* `Real` is the field `ℚ` (exact arithmetic, no rounding);
* the buffer pointer `mF` is `Option (List ℚ)`: `none` is the null pointer, and
  a read outside the list is a failed read (`none`), so the evaluators return
  `Option ℚ`;
* `int` is embedded twice. In `evaluate` and `evaluateDerivative` it is `ℤ` and
  `static_cast<int>` is the exact truncation toward zero. In `evaluate32` and
  `evaluateDerivative32` it is the 32-bit machine type: the conversion of a value
  beyond the range of `int` yields `INT_MIN`, and the sums and products of the
  index computation wrap around. The two agree whenever both index values are
  below `2^31` and the last buffer index `mXBound * mYBound - 1` fits `int`; what
  depends on the size of an index or of the grid is stated on the 32-bit
  evaluators.
-/

namespace GTEngine

/-- The conversion `static_cast<int>(r)` with `int` as `ℤ`: truncation toward
zero. It is the machine conversion for every `r` whose truncation fits `int`;
`staticCastInt32` is the conversion on 32-bit `int` for every `r`. -/
def staticCastInt (r : ℚ) : ℤ :=
  if 0 ≤ r then ⌊r⌋ else ⌈r⌉

/-- The class `IntpBilinear2<Real>`: its data members. -/
structure IntpBilinear2 where
  mXBound : ℤ
  mYBound : ℤ
  mQuantity : ℤ
  mXMin : ℚ
  mXMax : ℚ
  mXSpacing : ℚ
  mInvXSpacing : ℚ
  mYMin : ℚ
  mYMax : ℚ
  mYSpacing : ℚ
  mInvYSpacing : ℚ
  mF : Option (List ℚ)
  mBlend : Fin 2 → Fin 2 → ℚ

/-- The two conditions handed to `LogAssert` by the constructor (lines 23-24);
`mF` as a condition is "the pointer is not null". -/
def ctorAsserts (xBound yBound : ℤ) (xSpacing ySpacing : ℚ) (F : Option (List ℚ)) : Bool :=
  (decide (xBound ≥ 2) && decide (yBound ≥ 2) && F.isSome)
    && (decide (xSpacing > 0) && decide (ySpacing > 0))

/-- The constructor `IntpBilinear2(xBound, yBound, xMin, xSpacing, yMin, ySpacing, F)`:
the member initialisers and the assignments of lines 26-34. -/
def IntpBilinear2.ctor (xBound yBound : ℤ) (xMin xSpacing yMin ySpacing : ℚ)
    (F : Option (List ℚ)) : IntpBilinear2 where
  mXBound := xBound
  mYBound := yBound
  mQuantity := xBound * yBound
  mXMin := xMin
  mXSpacing := xSpacing
  mYMin := yMin
  mYSpacing := ySpacing
  mF := F
  mXMax := xMin + xSpacing * ((xBound - 1 : ℤ) : ℚ)
  mInvXSpacing := 1 / xSpacing
  mYMax := yMin + ySpacing * ((yBound - 1 : ℤ) : ℚ)
  mInvYSpacing := 1 / ySpacing
  mBlend := ![![1, -1], ![0, 1]]

/-- The index clamp written out after each `static_cast<int>`:
`if (i < 0) i = 0; else if (i >= bound) i = bound - 1;`. -/
def clampToImage (i bound : ℤ) : ℤ :=
  if i < 0 then 0 else if i ≥ bound then bound - 1 else i

/-- The neighbour clamp of the accumulation loops:
`int c = i + off; if (c >= bound) c = bound - 1;`. -/
def neighborClamp (i off bound : ℤ) : ℤ :=
  if i + off ≥ bound then bound - 1 else i + off

namespace IntpBilinear2

/-- The local `xIndex = (x - mXMin) * mInvXSpacing`. -/
def xIndex (I : IntpBilinear2) (x : ℚ) : ℚ :=
  (x - I.mXMin) * I.mInvXSpacing

/-- The local `yIndex = (y - mYMin) * mInvYSpacing`. -/
def yIndex (I : IntpBilinear2) (y : ℚ) : ℚ :=
  (y - I.mYMin) * I.mInvYSpacing

/-- The local `ix` after the clamp (lines 102-110). -/
def ix (I : IntpBilinear2) (x : ℚ) : ℤ :=
  clampToImage (staticCastInt (I.xIndex x)) I.mXBound

/-- The local `iy` after the clamp (lines 114-122). -/
def iy (I : IntpBilinear2) (y : ℚ) : ℤ :=
  clampToImage (staticCastInt (I.yIndex y)) I.mYBound

/-- The read `mF[k]`: fails on a null pointer and outside the buffer. -/
def readF (I : IntpBilinear2) (k : ℤ) : Option ℚ :=
  match I.mF with
  | none => none
  | some F => if 0 ≤ k then F[k.toNat]? else none

/-- One row of the product `M*U` (lines 134-143): the accumulator starts at `0`
and adds `mBlend[row][col] * U[col]` for `col = 0, 1`. -/
def blendRow (I : IntpBilinear2) (U : Fin 2 → ℚ) (row : Fin 2) : ℚ :=
  [0, 1].foldl (fun acc col => acc + I.mBlend row col * U col) 0

/-- The buffer index `xClamp + mXBound * yClamp` read for `(row, col)`, with `int`
as `ℤ`; `bufferIndex32` is the index formed in 32-bit `int`. -/
def bufferIndex (I : IntpBilinear2) (ix iy : ℤ) (row col : Fin 2) : ℤ :=
  neighborClamp ix ((col : ℕ) : ℤ) I.mXBound
    + I.mXBound * neighborClamp iy ((row : ℕ) : ℤ) I.mYBound

/-- The accumulation loops (lines 146-165): `result` starts at `0`; for
`row = 0, 1` and, inside, `col = 0, 1`, it gains `P[col] * Q[row] * mF[index]`. -/
def accumulate (I : IntpBilinear2) (ix iy : ℤ) (P Q : Fin 2 → ℚ) : Option ℚ :=
  [0, 1].foldlM (fun result row =>
    [0, 1].foldlM (fun result col =>
      (I.readF (I.bufferIndex ix iy row col)).map
        (fun f => result + P col * Q row * f)) result) 0

/-- The value evaluator `operator()(Real x, Real y)`. -/
def evaluate (I : IntpBilinear2) (x y : ℚ) : Option ℚ :=
  let xIndex := I.xIndex x
  let ix := I.ix x
  let yIndex := I.yIndex y
  let iy := I.iy y
  let U : Fin 2 → ℚ := ![1, xIndex - (ix : ℚ)]
  let V : Fin 2 → ℚ := ![1, yIndex - (iy : ℚ)]
  let P : Fin 2 → ℚ := I.blendRow U
  let Q : Fin 2 → ℚ := I.blendRow V
  I.accumulate ix iy P Q

/-- One `switch (order)` of the derivative evaluator: the basis and the
multiplier for orders `0` and `1`, and `none` for the `default` branch. -/
def orderBasis (order : ℤ) (d inv : ℚ) : Option ((Fin 2 → ℚ) × ℚ) :=
  if order = 0 then some (![1, d], 1)
  else if order = 1 then some (![0, 1], inv)
  else none

/-- The derivative evaluator `operator()(int xOrder, int yOrder, Real x, Real y)`. -/
def evaluateDerivative (I : IntpBilinear2) (xOrder yOrder : ℤ) (x y : ℚ) : Option ℚ :=
  let xIndex := I.xIndex x
  let ix := I.ix x
  let yIndex := I.yIndex y
  let iy := I.iy y
  match orderBasis xOrder (xIndex - (ix : ℚ)) I.mInvXSpacing with
  | none => some 0
  | some (U, xMult) =>
    match orderBasis yOrder (yIndex - (iy : ℚ)) I.mInvYSpacing with
    | none => some 0
    | some (V, yMult) =>
      let P : Fin 2 → ℚ := I.blendRow U
      let Q : Fin 2 → ℚ := I.blendRow V
      (I.accumulate ix iy P Q).map (fun result => result * (xMult * yMult))

end IntpBilinear2

/-- The interpolants of the data model: what the constructor builds from a grid
of at least 2x2 nodes with positive spacings and a buffer of
`xBound * yBound` samples. -/
def IntpBilinear2.Valid (I : IntpBilinear2) : Prop :=
  ∃ F : List ℚ,
    I = IntpBilinear2.ctor I.mXBound I.mYBound I.mXMin I.mXSpacing I.mYMin I.mYSpacing (some F)
      ∧ 2 ≤ I.mXBound ∧ 2 ≤ I.mYBound ∧ 0 < I.mXSpacing ∧ 0 < I.mYSpacing
      ∧ (F.length : ℤ) = I.mXBound * I.mYBound

/-- Spec: the standard bilinear interpolation formula
`(1-dx)(1-dy) f00 + dx (1-dy) f10 + (1-dx) dy f01 + dx dy f11`. -/
def standardBilinear (dx dy f00 f10 f01 f11 : ℚ) : ℚ :=
  (1 - dx) * (1 - dy) * f00 + dx * (1 - dy) * f10 + (1 - dx) * dy * f01 + dx * dy * f11

/-- The hat function `max 0 (1 - |t|)`: the weight of a node at signed index
distance `t` in piecewise-linear interpolation. -/
def hat (t : ℚ) : ℚ := max 0 (1 - |t|)

/-- The 2x2 unit grid of the concrete scenario: samples `[0, 2, 4, 6]`. -/
def unitGrid : IntpBilinear2 :=
  IntpBilinear2.ctor 2 2 0 1 0 1 (some [0, 2, 4, 6])

/-- A 3x3 grid with origin `(1, -1)` and spacings `2` and `1/2`. -/
def grid3 : IntpBilinear2 :=
  IntpBilinear2.ctor 3 3 1 2 (-1) (1 / 2) (some [0, 1, 4, 2, 3, 5, 7, 8, 6])

/-- Modelled from the spec: the macro `LogAssert(condition, message)` is not part
of the source file. By the specification a violated construction precondition
is a fatal, non-recoverable failure, so a false condition ends the computation
with the message, and a true one lets it go on. -/
def LogAssert (condition : Bool) (message : String) : Except String Unit :=
  if condition then Except.ok () else Except.error message

/-- The constructor with its two precondition checks (lines 23-24) in front of
the construction of the members. -/
def IntpBilinear2.construct (xBound yBound : ℤ) (xMin xSpacing yMin ySpacing : ℚ)
    (F : Option (List ℚ)) : Except String IntpBilinear2 := do
  LogAssert (decide (xBound ≥ 2) && decide (yBound ≥ 2) && F.isSome) "Invalid input."
  LogAssert (decide (xSpacing > 0) && decide (ySpacing > 0)) "Invalid input."
  pure (IntpBilinear2.ctor xBound yBound xMin xSpacing yMin ySpacing F)

/-- Spec: the index policy "take the floor, then clamp to `[0, bound - 1]`". -/
def floorClamp (t : ℚ) (bound : ℤ) : ℤ :=
  max 0 (min ⌊t⌋ (bound - 1))

/-- The smallest value of `int`, `INT_MIN`. -/
def intMin : ℤ := -2147483648

/-- The largest value of `int`, `INT_MAX`. -/
def intMax : ℤ := 2147483647

/-- The result of an `int` addition or product whose mathematical value is `n`:
`n` itself within `[INT_MIN, INT_MAX]`, and its two's complement wrap beyond. -/
def wrapInt (n : ℤ) : ℤ :=
  (n + 2147483648) % 4294967296 - 2147483648

/-- The conversion `static_cast<int>(r)` on 32-bit `int`: truncation toward zero
when the truncated value fits `int`, and `INT_MIN` when it does not. -/
def staticCastInt32 (r : ℚ) : ℤ :=
  if intMin ≤ staticCastInt r ∧ staticCastInt r ≤ intMax then staticCastInt r else intMin

/-- The neighbour clamp of the accumulation loops with the sum `i + off` formed in
`int`. -/
def neighborClamp32 (i off bound : ℤ) : ℤ :=
  if wrapInt (i + off) ≥ bound then bound - 1 else wrapInt (i + off)

namespace IntpBilinear2

/-- The local `ix` after the clamp (lines 102-110), converted in `int`. -/
def ix32 (I : IntpBilinear2) (x : ℚ) : ℤ :=
  clampToImage (staticCastInt32 (I.xIndex x)) I.mXBound

/-- The local `iy` after the clamp (lines 114-122), converted in `int`. -/
def iy32 (I : IntpBilinear2) (y : ℚ) : ℤ :=
  clampToImage (staticCastInt32 (I.yIndex y)) I.mYBound

/-- The buffer index `xClamp + mXBound * yClamp` read for `(row, col)`, formed in
`int`. -/
def bufferIndex32 (I : IntpBilinear2) (ix iy : ℤ) (row col : Fin 2) : ℤ :=
  wrapInt (neighborClamp32 ix ((col : ℕ) : ℤ) I.mXBound
    + wrapInt (I.mXBound * neighborClamp32 iy ((row : ℕ) : ℤ) I.mYBound))

/-- The accumulation loops (lines 146-165) with the buffer index formed in `int`. -/
def accumulate32 (I : IntpBilinear2) (ix iy : ℤ) (P Q : Fin 2 → ℚ) : Option ℚ :=
  [0, 1].foldlM (fun result row =>
    [0, 1].foldlM (fun result col =>
      (I.readF (I.bufferIndex32 ix iy row col)).map
        (fun f => result + P col * Q row * f)) result) 0

/-- The value evaluator `operator()(Real x, Real y)` in 32-bit `int`. -/
def evaluate32 (I : IntpBilinear2) (x y : ℚ) : Option ℚ :=
  let xIndex := I.xIndex x
  let ix := I.ix32 x
  let yIndex := I.yIndex y
  let iy := I.iy32 y
  let U : Fin 2 → ℚ := ![1, xIndex - (ix : ℚ)]
  let V : Fin 2 → ℚ := ![1, yIndex - (iy : ℚ)]
  let P : Fin 2 → ℚ := I.blendRow U
  let Q : Fin 2 → ℚ := I.blendRow V
  I.accumulate32 ix iy P Q

/-- The derivative evaluator `operator()(int xOrder, int yOrder, Real x, Real y)` in
32-bit `int`. -/
def evaluateDerivative32 (I : IntpBilinear2) (xOrder yOrder : ℤ) (x y : ℚ) : Option ℚ :=
  let xIndex := I.xIndex x
  let ix := I.ix32 x
  let yIndex := I.yIndex y
  let iy := I.iy32 y
  match orderBasis xOrder (xIndex - (ix : ℚ)) I.mInvXSpacing with
  | none => some 0
  | some (U, xMult) =>
    match orderBasis yOrder (yIndex - (iy : ℚ)) I.mInvYSpacing with
    | none => some 0
    | some (V, yMult) =>
      let P : Fin 2 → ℚ := I.blendRow U
      let Q : Fin 2 → ℚ := I.blendRow V
      (I.accumulate32 ix iy P Q).map (fun result => result * (xMult * yMult))

/-- The buffer indices fit `int`: the last one, `xBound * yBound - 1`, is at most
`INT_MAX`. -/
def IndexFitsInt (I : IntpBilinear2) : Prop :=
  I.mXBound * I.mYBound - 1 ≤ intMax

end IntpBilinear2

/-- A buffer of `46341 * 46341 = 2147488281` zero samples. -/
def bigBuffer : List ℚ :=
  List.replicate 2147488281 0

/-- A 46341 x 46341 unit grid: it passes the checks of the constructor, and its
last buffer index `2147488280` exceeds `INT_MAX`. -/
def bigGrid : IntpBilinear2 :=
  IntpBilinear2.ctor 46341 46341 0 1 0 1 (some bigBuffer)

/-! ## Index resolution -/

lemma staticCastInt_intCast (n : ℤ) : staticCastInt (n : ℚ) = n := by
  unfold staticCastInt
  split <;> simp

lemma staticCastInt_nonpos {r : ℚ} (h : r < 0) : staticCastInt r ≤ 0 := by
  unfold staticCastInt
  rw [if_neg (not_le.mpr h)]
  exact Int.ceil_le.mpr (by exact_mod_cast h.le)

lemma staticCastInt_of_nonneg {r : ℚ} (h : 0 ≤ r) : staticCastInt r = ⌊r⌋ := by
  unfold staticCastInt
  rw [if_pos h]

lemma clampToImage_nonneg (i : ℤ) {bound : ℤ} (hb : 1 ≤ bound) : 0 ≤ clampToImage i bound := by
  unfold clampToImage
  split_ifs <;> omega

lemma clampToImage_le (i : ℤ) {bound : ℤ} (hb : 1 ≤ bound) :
    clampToImage i bound ≤ bound - 1 := by
  unfold clampToImage
  split_ifs <;> omega

lemma clampToImage_of_mem {i bound : ℤ} (h0 : 0 ≤ i) (h1 : i ≤ bound - 1) :
    clampToImage i bound = i := by
  unfold clampToImage
  split_ifs <;> omega

lemma clampToImage_of_nonpos {i bound : ℤ} (h0 : i ≤ 0) (hb : 1 ≤ bound) :
    clampToImage i bound = 0 := by
  unfold clampToImage
  split_ifs <;> omega

lemma neighborClamp_eq_min (i off bound : ℤ) :
    neighborClamp i off bound = min (i + off) (bound - 1) := by
  unfold neighborClamp
  split_ifs with h
  · rw [min_eq_right (by omega)]
  · rw [min_eq_left (by omega)]

lemma neighborClamp_nonneg {i off bound : ℤ} (hi : 0 ≤ i) (ho : 0 ≤ off) (hb : 1 ≤ bound) :
    0 ≤ neighborClamp i off bound := by
  unfold neighborClamp
  split_ifs <;> omega

lemma neighborClamp_le (i off bound : ℤ) :
    neighborClamp i off bound ≤ bound - 1 := by
  unfold neighborClamp
  split_ifs <;> omega

/-! ## Hat functions -/

lemma continuous_hat : Continuous hat := by
  unfold hat
  fun_prop

namespace IntpBilinear2

lemma Valid.invXSpacing {I : IntpBilinear2} (h : I.Valid) :
    I.mInvXSpacing = 1 / I.mXSpacing := by
  obtain ⟨F, hI, -⟩ := h
  exact congrArg IntpBilinear2.mInvXSpacing hI

lemma Valid.invYSpacing {I : IntpBilinear2} (h : I.Valid) :
    I.mInvYSpacing = 1 / I.mYSpacing := by
  obtain ⟨F, hI, -⟩ := h
  exact congrArg IntpBilinear2.mInvYSpacing hI

lemma Valid.blend {I : IntpBilinear2} (h : I.Valid) :
    I.mBlend = ![![1, -1], ![0, 1]] := by
  obtain ⟨F, hI, -⟩ := h
  exact congrArg IntpBilinear2.mBlend hI

lemma Valid.xBound_ge {I : IntpBilinear2} (h : I.Valid) : 2 ≤ I.mXBound := by
  obtain ⟨F, -, hx, -⟩ := h
  exact hx

lemma Valid.yBound_ge {I : IntpBilinear2} (h : I.Valid) : 2 ≤ I.mYBound := by
  obtain ⟨F, -, -, hy, -⟩ := h
  exact hy

lemma Valid.xSpacing_pos {I : IntpBilinear2} (h : I.Valid) : 0 < I.mXSpacing := by
  obtain ⟨F, -, -, -, hs, -⟩ := h
  exact hs

lemma Valid.ySpacing_pos {I : IntpBilinear2} (h : I.Valid) : 0 < I.mYSpacing := by
  obtain ⟨F, -, -, -, -, hs, -⟩ := h
  exact hs

lemma Valid.ctorAsserts {I : IntpBilinear2} (h : I.Valid) :
    ctorAsserts I.mXBound I.mYBound I.mXSpacing I.mYSpacing I.mF = true := by
  obtain ⟨F, hI, hx, hy, hsx, hsy, -⟩ := h
  have hF : I.mF = some F := congrArg IntpBilinear2.mF hI
  simp [GTEngine.ctorAsserts, hF, hx, hy, hsx, hsy]

lemma ix_nonneg {I : IntpBilinear2} (h : I.Valid) (x : ℚ) : 0 ≤ I.ix x :=
  clampToImage_nonneg _ (by have := h.xBound_ge; omega)

lemma ix_le {I : IntpBilinear2} (h : I.Valid) (x : ℚ) : I.ix x ≤ I.mXBound - 1 :=
  clampToImage_le _ (by have := h.xBound_ge; omega)

lemma iy_nonneg {I : IntpBilinear2} (h : I.Valid) (y : ℚ) : 0 ≤ I.iy y :=
  clampToImage_nonneg _ (by have := h.yBound_ge; omega)

lemma iy_le {I : IntpBilinear2} (h : I.Valid) (y : ℚ) : I.iy y ≤ I.mYBound - 1 :=
  clampToImage_le _ (by have := h.yBound_ge; omega)

/-! ## Buffer reads -/

lemma bufferIndex_nonneg {I : IntpBilinear2} (h : I.Valid) {ix iy : ℤ}
    (hx : 0 ≤ ix) (hy : 0 ≤ iy) (row col : Fin 2) : 0 ≤ I.bufferIndex ix iy row col := by
  have hxb := h.xBound_ge
  have hyb := h.yBound_ge
  have h1 : 0 ≤ neighborClamp ix ((col : ℕ) : ℤ) I.mXBound :=
    neighborClamp_nonneg hx (by positivity) (by omega)
  have h2 : 0 ≤ neighborClamp iy ((row : ℕ) : ℤ) I.mYBound :=
    neighborClamp_nonneg hy (by positivity) (by omega)
  unfold bufferIndex
  nlinarith [mul_nonneg (show (0 : ℤ) ≤ I.mXBound by omega) h2]

lemma bufferIndex_lt {I : IntpBilinear2} (h : I.Valid) (ix iy : ℤ) (row col : Fin 2) :
    I.bufferIndex ix iy row col < I.mXBound * I.mYBound := by
  have hxb := h.xBound_ge
  have h1 := neighborClamp_le ix ((col : ℕ) : ℤ) I.mXBound
  have h2 := neighborClamp_le iy ((row : ℕ) : ℤ) I.mYBound
  unfold bufferIndex
  nlinarith [mul_le_mul_of_nonneg_left h2 (show (0 : ℤ) ≤ I.mXBound by omega)]

lemma readF_isSome {I : IntpBilinear2} (h : I.Valid) {k : ℤ}
    (h0 : 0 ≤ k) (h1 : k < I.mXBound * I.mYBound) : ∃ f, I.readF k = some f := by
  obtain ⟨F, hI, -, -, -, -, hlen⟩ := h
  have hF : I.mF = some F := congrArg IntpBilinear2.mF hI
  have hk : k.toNat < F.length := by omega
  refine ⟨F[k.toNat], ?_⟩
  unfold readF
  rw [hF]
  simp [h0, hk]

lemma readF_bufferIndex {I : IntpBilinear2} (h : I.Valid) {ix iy : ℤ}
    (hx : 0 ≤ ix) (hy : 0 ≤ iy) (row col : Fin 2) :
    ∃ f, I.readF (I.bufferIndex ix iy row col) = some f :=
  readF_isSome h (bufferIndex_nonneg h hx hy row col) (bufferIndex_lt h ix iy row col)

/-- The accumulation loops unrolled, given the four samples they read. -/
lemma accumulate_eq {I : IntpBilinear2} {ix iy : ℤ} {f00 f10 f01 f11 : ℚ} (P Q : Fin 2 → ℚ)
    (h00 : I.readF (I.bufferIndex ix iy 0 0) = some f00)
    (h10 : I.readF (I.bufferIndex ix iy 0 1) = some f10)
    (h01 : I.readF (I.bufferIndex ix iy 1 0) = some f01)
    (h11 : I.readF (I.bufferIndex ix iy 1 1) = some f11) :
    I.accumulate ix iy P Q
      = some (P 0 * Q 0 * f00 + P 1 * Q 0 * f10 + P 0 * Q 1 * f01 + P 1 * Q 1 * f11) := by
  simp [accumulate, h00, h10, h01, h11]

lemma blendRow_zero {I : IntpBilinear2} (h : I.Valid) (U : Fin 2 → ℚ) :
    I.blendRow U 0 = U 0 - U 1 := by
  simp [blendRow, h.blend]
  ring

lemma blendRow_one {I : IntpBilinear2} (h : I.Valid) (U : Fin 2 → ℚ) :
    I.blendRow U 1 = U 1 := by
  simp [blendRow, h.blend]

/-- The value evaluator in closed form, given the four samples it reads. -/
lemma evaluate_eq {I : IntpBilinear2} (h : I.Valid) (x y : ℚ) {f00 f10 f01 f11 : ℚ}
    (h00 : I.readF (I.bufferIndex (I.ix x) (I.iy y) 0 0) = some f00)
    (h10 : I.readF (I.bufferIndex (I.ix x) (I.iy y) 0 1) = some f10)
    (h01 : I.readF (I.bufferIndex (I.ix x) (I.iy y) 1 0) = some f01)
    (h11 : I.readF (I.bufferIndex (I.ix x) (I.iy y) 1 1) = some f11) :
    I.evaluate x y
      = some (standardBilinear (I.xIndex x - (I.ix x : ℚ)) (I.yIndex y - (I.iy y : ℚ))
          f00 f10 f01 f11) := by
  unfold evaluate
  simp only []
  rw [accumulate_eq _ _ h00 h10 h01 h11]
  simp only [blendRow_zero h, blendRow_one h, standardBilinear]
  simp

/-- The four samples read around a resolved cell exist. -/
lemma reads_exist {I : IntpBilinear2} (h : I.Valid) (x y : ℚ) :
    ∃ f00 f10 f01 f11 : ℚ,
      I.readF (I.bufferIndex (I.ix x) (I.iy y) 0 0) = some f00
        ∧ I.readF (I.bufferIndex (I.ix x) (I.iy y) 0 1) = some f10
        ∧ I.readF (I.bufferIndex (I.ix x) (I.iy y) 1 0) = some f01
        ∧ I.readF (I.bufferIndex (I.ix x) (I.iy y) 1 1) = some f11 := by
  obtain ⟨f00, h00⟩ := readF_bufferIndex h (ix_nonneg h x) (iy_nonneg h y) 0 0
  obtain ⟨f10, h10⟩ := readF_bufferIndex h (ix_nonneg h x) (iy_nonneg h y) 0 1
  obtain ⟨f01, h01⟩ := readF_bufferIndex h (ix_nonneg h x) (iy_nonneg h y) 1 0
  obtain ⟨f11, h11⟩ := readF_bufferIndex h (ix_nonneg h x) (iy_nonneg h y) 1 1
  exact ⟨f00, f10, f01, f11, h00, h10, h01, h11⟩

/-- The derivative evaluator in closed form for orders in `{0, 1}`, given the
bases chosen by the two switches and the four samples read. -/
lemma evaluateDerivative_eq {I : IntpBilinear2} (h : I.Valid) (xOrder yOrder : ℤ) (x y : ℚ)
    {U V : Fin 2 → ℚ} {xMult yMult f00 f10 f01 f11 : ℚ}
    (hU : orderBasis xOrder (I.xIndex x - (I.ix x : ℚ)) I.mInvXSpacing = some (U, xMult))
    (hV : orderBasis yOrder (I.yIndex y - (I.iy y : ℚ)) I.mInvYSpacing = some (V, yMult))
    (h00 : I.readF (I.bufferIndex (I.ix x) (I.iy y) 0 0) = some f00)
    (h10 : I.readF (I.bufferIndex (I.ix x) (I.iy y) 0 1) = some f10)
    (h01 : I.readF (I.bufferIndex (I.ix x) (I.iy y) 1 0) = some f01)
    (h11 : I.readF (I.bufferIndex (I.ix x) (I.iy y) 1 1) = some f11) :
    I.evaluateDerivative xOrder yOrder x y
      = some (((U 0 - U 1) * (V 0 - V 1) * f00 + U 1 * (V 0 - V 1) * f10
          + (U 0 - U 1) * V 1 * f01 + U 1 * V 1 * f11) * (xMult * yMult)) := by
  unfold evaluateDerivative
  simp only [hU, hV]
  rw [accumulate_eq _ _ h00 h10 h01 h11]
  simp only [blendRow_zero h, blendRow_one h, Option.map_some']

lemma evaluateDerivative_one_zero {I : IntpBilinear2} (h : I.Valid) (x y : ℚ)
    {f00 f10 f01 f11 : ℚ}
    (h00 : I.readF (I.bufferIndex (I.ix x) (I.iy y) 0 0) = some f00)
    (h10 : I.readF (I.bufferIndex (I.ix x) (I.iy y) 0 1) = some f10)
    (h01 : I.readF (I.bufferIndex (I.ix x) (I.iy y) 1 0) = some f01)
    (h11 : I.readF (I.bufferIndex (I.ix x) (I.iy y) 1 1) = some f11) :
    I.evaluateDerivative 1 0 x y
      = some (((1 - (I.yIndex y - (I.iy y : ℚ))) * (f10 - f00)
          + (I.yIndex y - (I.iy y : ℚ)) * (f11 - f01)) * I.mInvXSpacing) := by
  have hU : orderBasis 1 (I.xIndex x - (I.ix x : ℚ)) I.mInvXSpacing
      = some (![0, 1], I.mInvXSpacing) := by simp [orderBasis]
  have hV : orderBasis 0 (I.yIndex y - (I.iy y : ℚ)) I.mInvYSpacing
      = some (![1, I.yIndex y - (I.iy y : ℚ)], 1) := by simp [orderBasis]
  rw [evaluateDerivative_eq h 1 0 x y hU hV h00 h10 h01 h11]
  simp only [Matrix.cons_val_zero, Matrix.cons_val_one, Matrix.head_cons]
  congr 1
  ring

lemma evaluateDerivative_zero_one {I : IntpBilinear2} (h : I.Valid) (x y : ℚ)
    {f00 f10 f01 f11 : ℚ}
    (h00 : I.readF (I.bufferIndex (I.ix x) (I.iy y) 0 0) = some f00)
    (h10 : I.readF (I.bufferIndex (I.ix x) (I.iy y) 0 1) = some f10)
    (h01 : I.readF (I.bufferIndex (I.ix x) (I.iy y) 1 0) = some f01)
    (h11 : I.readF (I.bufferIndex (I.ix x) (I.iy y) 1 1) = some f11) :
    I.evaluateDerivative 0 1 x y
      = some (((1 - (I.xIndex x - (I.ix x : ℚ))) * (f01 - f00)
          + (I.xIndex x - (I.ix x : ℚ)) * (f11 - f10)) * I.mInvYSpacing) := by
  have hU : orderBasis 0 (I.xIndex x - (I.ix x : ℚ)) I.mInvXSpacing
      = some (![1, I.xIndex x - (I.ix x : ℚ)], 1) := by simp [orderBasis]
  have hV : orderBasis 1 (I.yIndex y - (I.iy y : ℚ)) I.mInvYSpacing
      = some (![0, 1], I.mInvYSpacing) := by simp [orderBasis]
  rw [evaluateDerivative_eq h 0 1 x y hU hV h00 h10 h01 h11]
  simp only [Matrix.cons_val_zero, Matrix.cons_val_one, Matrix.head_cons]
  congr 1
  ring

lemma bufferIndex_eq_min (I : IntpBilinear2) (ix iy : ℤ) (row col : Fin 2) :
    I.bufferIndex ix iy row col
      = min (ix + ((col : ℕ) : ℤ)) (I.mXBound - 1)
        + I.mXBound * min (iy + ((row : ℕ) : ℤ)) (I.mYBound - 1) := by
  unfold bufferIndex
  rw [neighborClamp_eq_min, neighborClamp_eq_min]

/-! ## Queries at grid nodes -/

lemma evaluateDerivative_isSome {I : IntpBilinear2} (h : I.Valid) (xOrder yOrder : ℤ)
    (x y : ℚ) : ∃ v, I.evaluateDerivative xOrder yOrder x y = some v := by
  obtain ⟨f00, f10, f01, f11, h00, h10, h01, h11⟩ := reads_exist h x y
  cases hU : orderBasis xOrder (I.xIndex x - (I.ix x : ℚ)) I.mInvXSpacing with
  | none => exact ⟨0, by simp [evaluateDerivative, hU]⟩
  | some p =>
    cases hV : orderBasis yOrder (I.yIndex y - (I.iy y : ℚ)) I.mInvYSpacing with
    | none => exact ⟨0, by simp [evaluateDerivative, hU, hV]⟩
    | some q =>
      obtain ⟨U, xMult⟩ := p
      obtain ⟨V, yMult⟩ := q
      exact ⟨_, evaluateDerivative_eq h xOrder yOrder x y hU hV h00 h10 h01 h11⟩

/-! ## Queries below the grid -/

lemma xIndex_neg {I : IntpBilinear2} (h : I.Valid) {x : ℚ} (hx : x < I.mXMin) :
    I.xIndex x < 0 := by
  have hs := h.xSpacing_pos
  unfold xIndex
  rw [h.invXSpacing]
  exact mul_neg_of_neg_of_pos (by linarith) (by positivity)

lemma xIndex_eq_div {I : IntpBilinear2} (h : I.Valid) (x : ℚ) :
    I.xIndex x = (x - I.mXMin) / I.mXSpacing := by
  unfold xIndex
  rw [h.invXSpacing]
  ring

lemma ix_of_lt_xMin {I : IntpBilinear2} (h : I.Valid) {x : ℚ} (hx : x < I.mXMin) :
    I.ix x = 0 := by
  unfold ix
  exact clampToImage_of_nonpos (staticCastInt_nonpos (xIndex_neg h hx))
    (by have := h.xBound_ge; omega)

lemma bufferIndex_zero_col {I : IntpBilinear2} (h : I.Valid) (iy : ℤ) (row col : Fin 2) :
    I.bufferIndex 0 iy row col
      = ((col : ℕ) : ℤ) + I.mXBound * min (iy + ((row : ℕ) : ℤ)) (I.mYBound - 1) := by
  have hxb := h.xBound_ge
  have hc : ((col : ℕ) : ℤ) ≤ 1 := by have := col.isLt; omega
  rw [bufferIndex_eq_min, zero_add, min_eq_left (by omega)]

/-! ## Shared cell edges -/

lemma Valid.xMax_eq {I : IntpBilinear2} (h : I.Valid) :
    I.mXMax = I.mXMin + I.mXSpacing * ((I.mXBound - 1 : ℤ) : ℚ) := by
  obtain ⟨F, hI, -⟩ := h
  exact congrArg IntpBilinear2.mXMax hI

lemma Valid.yMax_eq {I : IntpBilinear2} (h : I.Valid) :
    I.mYMax = I.mYMin + I.mYSpacing * ((I.mYBound - 1 : ℤ) : ℚ) := by
  obtain ⟨F, hI, -⟩ := h
  exact congrArg IntpBilinear2.mYMax hI

lemma yIndex_eq_div {I : IntpBilinear2} (h : I.Valid) (y : ℚ) :
    I.yIndex y = (y - I.mYMin) / I.mYSpacing := by
  unfold yIndex
  rw [h.invYSpacing]
  ring

lemma xIndex_mem_of_mem {I : IntpBilinear2} (h : I.Valid) {x : ℚ}
    (h0 : I.mXMin ≤ x) (h1 : x ≤ I.mXMax) :
    0 ≤ I.xIndex x ∧ I.xIndex x ≤ ((I.mXBound - 1 : ℤ) : ℚ) := by
  have hs := h.xSpacing_pos
  rw [h.xMax_eq] at h1
  rw [xIndex_eq_div h]
  constructor
  · exact div_nonneg (by linarith) hs.le
  · rw [div_le_iff₀ hs]
    linarith

lemma yIndex_mem_of_mem {I : IntpBilinear2} (h : I.Valid) {y : ℚ}
    (h0 : I.mYMin ≤ y) (h1 : y ≤ I.mYMax) :
    0 ≤ I.yIndex y ∧ I.yIndex y ≤ ((I.mYBound - 1 : ℤ) : ℚ) := by
  have hs := h.ySpacing_pos
  rw [h.yMax_eq] at h1
  rw [yIndex_eq_div h]
  constructor
  · exact div_nonneg (by linarith) hs.le
  · rw [div_le_iff₀ hs]
    linarith

lemma clampToImage_floor {bound : ℤ} {u : ℚ} (h0 : 0 ≤ u) (h1 : u ≤ ((bound - 1 : ℤ) : ℚ)) :
    clampToImage (staticCastInt u) bound = ⌊u⌋ := by
  rw [staticCastInt_of_nonneg h0]
  exact clampToImage_of_mem (Int.floor_nonneg.mpr h0)
    ((Int.floor_le_floor h1).trans_eq (Int.floor_intCast _))

lemma clampToImage_of_ge {i bound : ℤ} (h : bound - 1 ≤ i) (hb : 1 ≤ bound) :
    clampToImage i bound = bound - 1 := by
  unfold clampToImage
  split_ifs <;> omega

lemma xIndex_ge_of_ge_xMax {I : IntpBilinear2} (h : I.Valid) {x : ℚ} (hx : I.mXMax ≤ x) :
    ((I.mXBound - 1 : ℤ) : ℚ) ≤ I.xIndex x := by
  have hs := h.xSpacing_pos
  rw [h.xMax_eq] at hx
  rw [xIndex_eq_div h, le_div_iff₀ hs]
  linarith

lemma yIndex_ge_of_ge_yMax {I : IntpBilinear2} (h : I.Valid) {y : ℚ} (hy : I.mYMax ≤ y) :
    ((I.mYBound - 1 : ℤ) : ℚ) ≤ I.yIndex y := by
  have hs := h.ySpacing_pos
  rw [h.yMax_eq] at hy
  rw [yIndex_eq_div h, le_div_iff₀ hs]
  linarith

lemma clampToImage_of_le_cast {bound : ℤ} {u : ℚ} (hb : 1 ≤ bound)
    (hu : ((bound - 1 : ℤ) : ℚ) ≤ u) : clampToImage (staticCastInt u) bound = bound - 1 := by
  have h0 : (0 : ℚ) ≤ u := le_trans (by exact_mod_cast (show (0 : ℤ) ≤ bound - 1 by omega)) hu
  rw [staticCastInt_of_nonneg h0]
  exact clampToImage_of_ge (Int.le_floor.mpr hu) hb

lemma ix_of_ge_xMax {I : IntpBilinear2} (h : I.Valid) {x : ℚ} (hx : I.mXMax ≤ x) :
    I.ix x = I.mXBound - 1 :=
  clampToImage_of_le_cast (by have := h.xBound_ge; omega) (xIndex_ge_of_ge_xMax h hx)

lemma iy_of_ge_yMax {I : IntpBilinear2} (h : I.Valid) {y : ℚ} (hy : I.mYMax ≤ y) :
    I.iy y = I.mYBound - 1 :=
  clampToImage_of_le_cast (by have := h.yBound_ge; omega) (yIndex_ge_of_ge_yMax h hy)

lemma neighborClamp_last (bound off : ℤ) (ho : 0 ≤ off) :
    neighborClamp (bound - 1) off bound = bound - 1 := by
  unfold neighborClamp
  split_ifs <;> omega

lemma bufferIndex_last_col (I : IntpBilinear2) (iy : ℤ) (row col : Fin 2) :
    I.bufferIndex (I.mXBound - 1) iy row col = I.bufferIndex (I.mXBound - 1) iy row 0 := by
  unfold bufferIndex
  rw [neighborClamp_last _ _ (by positivity), neighborClamp_last _ _ (by positivity)]

lemma bufferIndex_last_row (I : IntpBilinear2) (ix : ℤ) (row col : Fin 2) :
    I.bufferIndex ix (I.mYBound - 1) row col = I.bufferIndex ix (I.mYBound - 1) 0 col := by
  unfold bufferIndex
  rw [neighborClamp_last _ _ (by positivity), neighborClamp_last _ _ (by positivity)]

/-! ## Queries inside the grid range -/

lemma staticCastInt_mem_of_mem {bound : ℤ} {u : ℚ} (h0 : 0 ≤ u)
    (h1 : u ≤ ((bound - 1 : ℤ) : ℚ)) :
    0 ≤ staticCastInt u ∧ staticCastInt u ≤ bound - 1 := by
  rw [staticCastInt_of_nonneg h0]
  exact ⟨Int.floor_nonneg.mpr h0, (Int.floor_le_floor h1).trans_eq (Int.floor_intCast _)⟩

/-! ## The fractional offset outside the grid range -/

lemma xOffset_of_gt_xMax {I : IntpBilinear2} (h : I.Valid) {x : ℚ} (hx : I.mXMax ≤ x) :
    I.xIndex x - (I.ix x : ℚ) = (x - I.mXMax) / I.mXSpacing := by
  have hs := h.xSpacing_pos
  rw [ix_of_ge_xMax h hx, xIndex_eq_div h, h.xMax_eq]
  field_simp
  ring

lemma yOffset_of_gt_yMax {I : IntpBilinear2} (h : I.Valid) {y : ℚ} (hy : I.mYMax ≤ y) :
    I.yIndex y - (I.iy y : ℚ) = (y - I.mYMax) / I.mYSpacing := by
  have hs := h.ySpacing_pos
  rw [iy_of_ge_yMax h hy, yIndex_eq_div h, h.yMax_eq]
  field_simp
  ring

lemma yIndex_neg {I : IntpBilinear2} (h : I.Valid) {y : ℚ} (hy : y < I.mYMin) :
    I.yIndex y < 0 := by
  have hs := h.ySpacing_pos
  unfold yIndex
  rw [h.invYSpacing]
  exact mul_neg_of_neg_of_pos (by linarith) (by positivity)

lemma iy_of_lt_yMin {I : IntpBilinear2} (h : I.Valid) {y : ℚ} (hy : y < I.mYMin) :
    I.iy y = 0 := by
  unfold iy
  exact clampToImage_of_nonpos (staticCastInt_nonpos (yIndex_neg h hy))
    (by have := h.yBound_ge; omega)

/-! ## The order switches -/

lemma orderBasis_one (d inv : ℚ) : orderBasis 1 d inv = some (![0, 1], inv) := by
  simp [orderBasis]

lemma orderBasis_zero (d inv : ℚ) : orderBasis 0 d inv = some (![1, d], 1) := by
  simp [orderBasis]

end IntpBilinear2

/-! ## The 32-bit conversions and sums -/

lemma wrapInt_of_mem {n : ℤ} (h0 : intMin ≤ n) (h1 : n ≤ intMax) : wrapInt n = n := by
  unfold wrapInt
  unfold intMin at h0
  unfold intMax at h1
  omega

lemma staticCastInt_le_intMax {r : ℚ} (hr : r < 2147483648) : staticCastInt r ≤ intMax := by
  unfold intMax
  by_cases h0 : 0 ≤ r
  · rw [staticCastInt_of_nonneg h0]
    have : ⌊r⌋ < 2147483648 := Int.floor_lt.mpr (by exact_mod_cast hr)
    omega
  · have := staticCastInt_nonpos (not_le.mp h0)
    omega

lemma staticCastInt32_of_mem {r : ℚ} (h0 : intMin ≤ staticCastInt r)
    (h1 : staticCastInt r ≤ intMax) : staticCastInt32 r = staticCastInt r := by
  unfold staticCastInt32
  rw [if_pos ⟨h0, h1⟩]

lemma staticCastInt32_of_gt {r : ℚ} (h : intMax < staticCastInt r) :
    staticCastInt32 r = intMin := by
  unfold staticCastInt32
  rw [if_neg (fun hc => absurd hc.2 (not_le.mpr h))]

/-- Below `2^31` the clamped index is the same for the conversion in `int` and for
the exact truncation: a truncation below `INT_MIN` and `INT_MIN` both clamp to `0`. -/
lemma clampToImage_staticCastInt32 {r : ℚ} {bound : ℤ} (hb : 1 ≤ bound)
    (hr : r < 2147483648) :
    clampToImage (staticCastInt32 r) bound = clampToImage (staticCastInt r) bound := by
  have h1 := staticCastInt_le_intMax hr
  by_cases h0 : intMin ≤ staticCastInt r
  · rw [staticCastInt32_of_mem h0 h1]
  · have hlt : staticCastInt r < intMin := not_le.mp h0
    have h32 : staticCastInt32 r = intMin := by
      unfold staticCastInt32
      rw [if_neg (fun hc => h0 hc.1)]
    rw [h32, clampToImage_of_nonpos (by unfold intMin; omega) hb,
      clampToImage_of_nonpos (by unfold intMin at hlt; omega) hb]

lemma neighborClamp32_eq {i off bound : ℤ} (hi0 : 0 ≤ i) (hi1 : i ≤ bound - 1)
    (ho0 : 0 ≤ off) (ho1 : off ≤ 1) (hb : bound ≤ intMax) :
    neighborClamp32 i off bound = neighborClamp i off bound := by
  have hw : wrapInt (i + off) = i + off :=
    wrapInt_of_mem (by unfold intMin; omega) (by omega)
  unfold neighborClamp32 neighborClamp
  rw [hw]

namespace IntpBilinear2

lemma ix32_nonneg {I : IntpBilinear2} (h : I.Valid) (x : ℚ) : 0 ≤ I.ix32 x :=
  clampToImage_nonneg _ (by have := h.xBound_ge; omega)

lemma ix32_le {I : IntpBilinear2} (h : I.Valid) (x : ℚ) : I.ix32 x ≤ I.mXBound - 1 :=
  clampToImage_le _ (by have := h.xBound_ge; omega)

lemma iy32_nonneg {I : IntpBilinear2} (h : I.Valid) (y : ℚ) : 0 ≤ I.iy32 y :=
  clampToImage_nonneg _ (by have := h.yBound_ge; omega)

lemma iy32_le {I : IntpBilinear2} (h : I.Valid) (y : ℚ) : I.iy32 y ≤ I.mYBound - 1 :=
  clampToImage_le _ (by have := h.yBound_ge; omega)

lemma ix32_eq_ix {I : IntpBilinear2} (h : I.Valid) {x : ℚ} (hx : I.xIndex x < 2147483648) :
    I.ix32 x = I.ix x :=
  clampToImage_staticCastInt32 (by have := h.xBound_ge; omega) hx

lemma iy32_eq_iy {I : IntpBilinear2} (h : I.Valid) {y : ℚ} (hy : I.yIndex y < 2147483648) :
    I.iy32 y = I.iy y :=
  clampToImage_staticCastInt32 (by have := h.yBound_ge; omega) hy

lemma IndexFitsInt.xBound_le {I : IntpBilinear2} (h : I.Valid) (hfit : I.IndexFitsInt) :
    I.mXBound ≤ intMax := by
  have hxb := h.xBound_ge
  have hyb := h.yBound_ge
  unfold IndexFitsInt at hfit
  unfold intMax at *
  nlinarith

lemma IndexFitsInt.yBound_le {I : IntpBilinear2} (h : I.Valid) (hfit : I.IndexFitsInt) :
    I.mYBound ≤ intMax := by
  have hxb := h.xBound_ge
  have hyb := h.yBound_ge
  unfold IndexFitsInt at hfit
  unfold intMax at *
  nlinarith

/-- When the buffer indices fit `int`, no sum or product of the index computation
wraps: the index formed in `int` is the exact one. -/
lemma bufferIndex32_eq {I : IntpBilinear2} (h : I.Valid) (hfit : I.IndexFitsInt) {ix iy : ℤ}
    (hx0 : 0 ≤ ix) (hx1 : ix ≤ I.mXBound - 1) (hy0 : 0 ≤ iy) (hy1 : iy ≤ I.mYBound - 1)
    (row col : Fin 2) : I.bufferIndex32 ix iy row col = I.bufferIndex ix iy row col := by
  have hxb := h.xBound_ge
  have hyb := h.yBound_ge
  have hc0 : (0 : ℤ) ≤ ((col : ℕ) : ℤ) := by positivity
  have hc1 : ((col : ℕ) : ℤ) ≤ 1 := by have := col.isLt; omega
  have hr0 : (0 : ℤ) ≤ ((row : ℕ) : ℤ) := by positivity
  have hr1 : ((row : ℕ) : ℤ) ≤ 1 := by have := row.isLt; omega
  have hxc0 := neighborClamp_nonneg hx0 hc0 (show 1 ≤ I.mXBound by omega)
  have hxc1 := neighborClamp_le ix ((col : ℕ) : ℤ) I.mXBound
  have hyc0 := neighborClamp_nonneg hy0 hr0 (show 1 ≤ I.mYBound by omega)
  have hyc1 := neighborClamp_le iy ((row : ℕ) : ℤ) I.mYBound
  have hprod0 : 0 ≤ I.mXBound * neighborClamp iy ((row : ℕ) : ℤ) I.mYBound :=
    mul_nonneg (by omega) hyc0
  have hprod1 : I.mXBound * neighborClamp iy ((row : ℕ) : ℤ) I.mYBound
      ≤ I.mXBound * (I.mYBound - 1) :=
    mul_le_mul_of_nonneg_left hyc1 (by omega)
  have hfit' : I.mXBound * I.mYBound - 1 ≤ 2147483647 := hfit
  have hexp : I.mXBound * (I.mYBound - 1) = I.mXBound * I.mYBound - I.mXBound := by ring
  unfold bufferIndex32 bufferIndex
  rw [neighborClamp32_eq hx0 hx1 hc0 hc1 (hfit.xBound_le h),
    neighborClamp32_eq hy0 hy1 hr0 hr1 (hfit.yBound_le h),
    wrapInt_of_mem (n := I.mXBound * neighborClamp iy ((row : ℕ) : ℤ) I.mYBound)
      (by unfold intMin; omega) (by unfold intMax; omega),
    wrapInt_of_mem (by unfold intMin; omega) (by unfold intMax; omega)]

lemma accumulate32_eq_accumulate {I : IntpBilinear2} (h : I.Valid) (hfit : I.IndexFitsInt)
    {ix iy : ℤ} (hx0 : 0 ≤ ix) (hx1 : ix ≤ I.mXBound - 1) (hy0 : 0 ≤ iy)
    (hy1 : iy ≤ I.mYBound - 1) (P Q : Fin 2 → ℚ) :
    I.accumulate32 ix iy P Q = I.accumulate ix iy P Q := by
  unfold accumulate32 accumulate
  simp only [bufferIndex32_eq h hfit hx0 hx1 hy0 hy1]

/-- The two embeddings of the value evaluator agree when the buffer indices fit
`int` and both index values are below `2^31`. -/
lemma evaluate32_eq_evaluate {I : IntpBilinear2} (h : I.Valid) (hfit : I.IndexFitsInt)
    {x y : ℚ} (hx : I.xIndex x < 2147483648) (hy : I.yIndex y < 2147483648) :
    I.evaluate32 x y = I.evaluate x y := by
  unfold evaluate32 evaluate
  simp only [ix32_eq_ix h hx, iy32_eq_iy h hy]
  exact accumulate32_eq_accumulate h hfit (ix_nonneg h x) (ix_le h x) (iy_nonneg h y)
    (iy_le h y) _ _

/-- The two embeddings of the derivative evaluator agree when the buffer indices
fit `int` and both index values are below `2^31`. -/
lemma evaluateDerivative32_eq_evaluateDerivative {I : IntpBilinear2} (h : I.Valid)
    (hfit : I.IndexFitsInt) (xOrder yOrder : ℤ) {x y : ℚ} (hx : I.xIndex x < 2147483648)
    (hy : I.yIndex y < 2147483648) :
    I.evaluateDerivative32 xOrder yOrder x y = I.evaluateDerivative xOrder yOrder x y := by
  unfold evaluateDerivative32 evaluateDerivative
  simp only [ix32_eq_ix h hx, iy32_eq_iy h hy,
    accumulate32_eq_accumulate h hfit (ix_nonneg h x) (ix_le h x) (iy_nonneg h y) (iy_le h y)]

/-! ## The 32-bit evaluators in closed form -/

lemma accumulate32_eq {I : IntpBilinear2} {ix iy : ℤ} {f00 f10 f01 f11 : ℚ} (P Q : Fin 2 → ℚ)
    (h00 : I.readF (I.bufferIndex32 ix iy 0 0) = some f00)
    (h10 : I.readF (I.bufferIndex32 ix iy 0 1) = some f10)
    (h01 : I.readF (I.bufferIndex32 ix iy 1 0) = some f01)
    (h11 : I.readF (I.bufferIndex32 ix iy 1 1) = some f11) :
    I.accumulate32 ix iy P Q
      = some (P 0 * Q 0 * f00 + P 1 * Q 0 * f10 + P 0 * Q 1 * f01 + P 1 * Q 1 * f11) := by
  simp [accumulate32, h00, h10, h01, h11]

/-- A failed first read ends the accumulation without a value. -/
lemma accumulate32_eq_none {I : IntpBilinear2} {ix iy : ℤ} (P Q : Fin 2 → ℚ)
    (h00 : I.readF (I.bufferIndex32 ix iy 0 0) = none) :
    I.accumulate32 ix iy P Q = none := by
  simp [accumulate32, h00]

lemma evaluate32_eq {I : IntpBilinear2} (h : I.Valid) (x y : ℚ) {f00 f10 f01 f11 : ℚ}
    (h00 : I.readF (I.bufferIndex32 (I.ix32 x) (I.iy32 y) 0 0) = some f00)
    (h10 : I.readF (I.bufferIndex32 (I.ix32 x) (I.iy32 y) 0 1) = some f10)
    (h01 : I.readF (I.bufferIndex32 (I.ix32 x) (I.iy32 y) 1 0) = some f01)
    (h11 : I.readF (I.bufferIndex32 (I.ix32 x) (I.iy32 y) 1 1) = some f11) :
    I.evaluate32 x y
      = some (standardBilinear (I.xIndex x - (I.ix32 x : ℚ)) (I.yIndex y - (I.iy32 y : ℚ))
          f00 f10 f01 f11) := by
  unfold evaluate32
  simp only []
  rw [accumulate32_eq _ _ h00 h10 h01 h11]
  simp only [blendRow_zero h, blendRow_one h, standardBilinear]
  simp

lemma evaluateDerivative32_eq {I : IntpBilinear2} (h : I.Valid) (xOrder yOrder : ℤ) (x y : ℚ)
    {U V : Fin 2 → ℚ} {xMult yMult f00 f10 f01 f11 : ℚ}
    (hU : orderBasis xOrder (I.xIndex x - (I.ix32 x : ℚ)) I.mInvXSpacing = some (U, xMult))
    (hV : orderBasis yOrder (I.yIndex y - (I.iy32 y : ℚ)) I.mInvYSpacing = some (V, yMult))
    (h00 : I.readF (I.bufferIndex32 (I.ix32 x) (I.iy32 y) 0 0) = some f00)
    (h10 : I.readF (I.bufferIndex32 (I.ix32 x) (I.iy32 y) 0 1) = some f10)
    (h01 : I.readF (I.bufferIndex32 (I.ix32 x) (I.iy32 y) 1 0) = some f01)
    (h11 : I.readF (I.bufferIndex32 (I.ix32 x) (I.iy32 y) 1 1) = some f11) :
    I.evaluateDerivative32 xOrder yOrder x y
      = some (((U 0 - U 1) * (V 0 - V 1) * f00 + U 1 * (V 0 - V 1) * f10
          + (U 0 - U 1) * V 1 * f01 + U 1 * V 1 * f11) * (xMult * yMult)) := by
  unfold evaluateDerivative32
  simp only [hU, hV]
  rw [accumulate32_eq _ _ h00 h10 h01 h11]
  simp only [blendRow_zero h, blendRow_one h, Option.map_some']

lemma evaluateDerivative32_of_none_x {I : IntpBilinear2} {xOrder : ℤ} (yOrder : ℤ) {x : ℚ}
    (y : ℚ)
    (hU : orderBasis xOrder (I.xIndex x - (I.ix32 x : ℚ)) I.mInvXSpacing = none) :
    I.evaluateDerivative32 xOrder yOrder x y = some 0 := by
  simp [evaluateDerivative32, hU]

lemma evaluateDerivative32_of_none_y {I : IntpBilinear2} (xOrder : ℤ) {yOrder : ℤ} (x : ℚ)
    {y : ℚ}
    (hV : orderBasis yOrder (I.yIndex y - (I.iy32 y : ℚ)) I.mInvYSpacing = none) :
    I.evaluateDerivative32 xOrder yOrder x y = some 0 := by
  unfold evaluateDerivative32
  simp only [hV]
  cases orderBasis xOrder (I.xIndex x - (I.ix32 x : ℚ)) I.mInvXSpacing <;> rfl

lemma readF_bufferIndex32 {I : IntpBilinear2} (h : I.Valid) (hfit : I.IndexFitsInt)
    {ix iy : ℤ} (hx0 : 0 ≤ ix) (hx1 : ix ≤ I.mXBound - 1) (hy0 : 0 ≤ iy)
    (hy1 : iy ≤ I.mYBound - 1) (row col : Fin 2) :
    ∃ f, I.readF (I.bufferIndex32 ix iy row col) = some f := by
  rw [bufferIndex32_eq h hfit hx0 hx1 hy0 hy1]
  exact readF_bufferIndex h hx0 hy0 row col

lemma reads32_exist {I : IntpBilinear2} (h : I.Valid) (hfit : I.IndexFitsInt) (x y : ℚ) :
    ∃ f00 f10 f01 f11 : ℚ,
      I.readF (I.bufferIndex32 (I.ix32 x) (I.iy32 y) 0 0) = some f00
        ∧ I.readF (I.bufferIndex32 (I.ix32 x) (I.iy32 y) 0 1) = some f10
        ∧ I.readF (I.bufferIndex32 (I.ix32 x) (I.iy32 y) 1 0) = some f01
        ∧ I.readF (I.bufferIndex32 (I.ix32 x) (I.iy32 y) 1 1) = some f11 := by
  have r := fun row col => readF_bufferIndex32 h hfit (ix32_nonneg h x) (ix32_le h x)
    (iy32_nonneg h y) (iy32_le h y) row col
  obtain ⟨f00, h00⟩ := r 0 0
  obtain ⟨f10, h10⟩ := r 0 1
  obtain ⟨f01, h01⟩ := r 1 0
  obtain ⟨f11, h11⟩ := r 1 1
  exact ⟨f00, f10, f01, f11, h00, h10, h01, h11⟩

lemma evaluate32_isSome {I : IntpBilinear2} (h : I.Valid) (hfit : I.IndexFitsInt) (x y : ℚ) :
    ∃ v, I.evaluate32 x y = some v := by
  obtain ⟨f00, f10, f01, f11, h00, h10, h01, h11⟩ := reads32_exist h hfit x y
  exact ⟨_, evaluate32_eq h x y h00 h10 h01 h11⟩

lemma evaluateDerivative32_isSome {I : IntpBilinear2} (h : I.Valid) (hfit : I.IndexFitsInt)
    (xOrder yOrder : ℤ) (x y : ℚ) : ∃ v, I.evaluateDerivative32 xOrder yOrder x y = some v := by
  obtain ⟨f00, f10, f01, f11, h00, h10, h01, h11⟩ := reads32_exist h hfit x y
  cases hU : orderBasis xOrder (I.xIndex x - (I.ix32 x : ℚ)) I.mInvXSpacing with
  | none => exact ⟨0, evaluateDerivative32_of_none_x yOrder y hU⟩
  | some p =>
    cases hV : orderBasis yOrder (I.yIndex y - (I.iy32 y : ℚ)) I.mInvYSpacing with
    | none => exact ⟨0, evaluateDerivative32_of_none_y xOrder x hV⟩
    | some q =>
      obtain ⟨U, xMult⟩ := p
      obtain ⟨V, yMult⟩ := q
      exact ⟨_, evaluateDerivative32_eq h xOrder yOrder x y hU hV h00 h10 h01 h11⟩

lemma evaluate32_unfold (I : IntpBilinear2) (x y : ℚ) :
    I.evaluate32 x y
      = I.accumulate32 (I.ix32 x) (I.iy32 y) (I.blendRow ![1, I.xIndex x - (I.ix32 x : ℚ)])
          (I.blendRow ![1, I.yIndex y - (I.iy32 y : ℚ)]) :=
  rfl

lemma evaluateDerivative32_unfold {I : IntpBilinear2} {xOrder yOrder : ℤ} {x y : ℚ}
    {U V : Fin 2 → ℚ} {xMult yMult : ℚ}
    (hU : orderBasis xOrder (I.xIndex x - (I.ix32 x : ℚ)) I.mInvXSpacing = some (U, xMult))
    (hV : orderBasis yOrder (I.yIndex y - (I.iy32 y : ℚ)) I.mInvYSpacing = some (V, yMult)) :
    I.evaluateDerivative32 xOrder yOrder x y
      = (I.accumulate32 (I.ix32 x) (I.iy32 y) (I.blendRow U) (I.blendRow V)).map
          (fun result => result * (xMult * yMult)) := by
  unfold evaluateDerivative32
  simp only [hU, hV]

lemma evaluateDerivative32_one_zero {I : IntpBilinear2} (h : I.Valid) (x y : ℚ)
    {f00 f10 f01 f11 : ℚ}
    (h00 : I.readF (I.bufferIndex32 (I.ix32 x) (I.iy32 y) 0 0) = some f00)
    (h10 : I.readF (I.bufferIndex32 (I.ix32 x) (I.iy32 y) 0 1) = some f10)
    (h01 : I.readF (I.bufferIndex32 (I.ix32 x) (I.iy32 y) 1 0) = some f01)
    (h11 : I.readF (I.bufferIndex32 (I.ix32 x) (I.iy32 y) 1 1) = some f11) :
    I.evaluateDerivative32 1 0 x y
      = some (((1 - (I.yIndex y - (I.iy32 y : ℚ))) * (f10 - f00)
          + (I.yIndex y - (I.iy32 y : ℚ)) * (f11 - f01)) * I.mInvXSpacing) := by
  rw [evaluateDerivative32_eq h 1 0 x y (orderBasis_one _ _) (orderBasis_zero _ _)
    h00 h10 h01 h11]
  simp only [Matrix.cons_val_zero, Matrix.cons_val_one, Matrix.head_cons]
  congr 1
  ring

/-! ## The 32-bit evaluators at and above the last node -/

lemma ix32_of_ge_xMax {I : IntpBilinear2} (h : I.Valid) {x : ℚ} (hx : I.mXMax ≤ x)
    (hr : I.xIndex x < 2147483648) : I.ix32 x = I.mXBound - 1 := by
  rw [ix32_eq_ix h hr, ix_of_ge_xMax h hx]

lemma iy32_of_ge_yMax {I : IntpBilinear2} (h : I.Valid) {y : ℚ} (hy : I.mYMax ≤ y)
    (hr : I.yIndex y < 2147483648) : I.iy32 y = I.mYBound - 1 := by
  rw [iy32_eq_iy h hr, iy_of_ge_yMax h hy]

lemma neighborClamp32_last {bound off : ℤ} (hb0 : 1 ≤ bound) (hb1 : bound ≤ intMax)
    (ho0 : 0 ≤ off) (ho1 : off ≤ 1) : neighborClamp32 (bound - 1) off bound = bound - 1 := by
  rw [neighborClamp32_eq (by omega) le_rfl ho0 ho1 hb1, neighborClamp_last _ _ ho0]

lemma bufferIndex32_last_col {I : IntpBilinear2} (h : I.Valid) (hfit : I.IndexFitsInt)
    (iy : ℤ) (row col : Fin 2) :
    I.bufferIndex32 (I.mXBound - 1) iy row col = I.bufferIndex32 (I.mXBound - 1) iy row 0 := by
  have hxb := h.xBound_ge
  have hc1 : ((col : ℕ) : ℤ) ≤ 1 := by have := col.isLt; omega
  unfold bufferIndex32
  rw [neighborClamp32_last (by omega) (hfit.xBound_le h) (by positivity) hc1,
    neighborClamp32_last (by omega) (hfit.xBound_le h) (by positivity) (by simp)]

lemma bufferIndex32_last_row {I : IntpBilinear2} (h : I.Valid) (hfit : I.IndexFitsInt)
    (ix : ℤ) (row col : Fin 2) :
    I.bufferIndex32 ix (I.mYBound - 1) row col = I.bufferIndex32 ix (I.mYBound - 1) 0 col := by
  have hyb := h.yBound_ge
  have hr1 : ((row : ℕ) : ℤ) ≤ 1 := by have := row.isLt; omega
  unfold bufferIndex32
  rw [neighborClamp32_last (by omega) (hfit.yBound_le h) (by positivity) hr1,
    neighborClamp32_last (by omega) (hfit.yBound_le h) (by positivity) (by simp)]

/-- With the cell column at the last node both columns read the same samples, so
the two column weights only enter through their sum. -/
lemma accumulate32_last_col {I : IntpBilinear2} (h : I.Valid) (hfit : I.IndexFitsInt) {iy : ℤ}
    (hy0 : 0 ≤ iy) (hy1 : iy ≤ I.mYBound - 1) :
    ∃ g0 g1 : ℚ, ∀ P Q : Fin 2 → ℚ, I.accumulate32 (I.mXBound - 1) iy P Q
      = some ((P 0 + P 1) * (Q 0 * g0 + Q 1 * g1)) := by
  have hxb := h.xBound_ge
  obtain ⟨g0, h0⟩ := readF_bufferIndex32 h hfit (show (0 : ℤ) ≤ I.mXBound - 1 by omega)
    le_rfl hy0 hy1 0 0
  obtain ⟨g1, h1⟩ := readF_bufferIndex32 h hfit (show (0 : ℤ) ≤ I.mXBound - 1 by omega)
    le_rfl hy0 hy1 1 0
  have k0 : I.readF (I.bufferIndex32 (I.mXBound - 1) iy 0 1) = some g0 := by
    rw [bufferIndex32_last_col h hfit]; exact h0
  have k1 : I.readF (I.bufferIndex32 (I.mXBound - 1) iy 1 1) = some g1 := by
    rw [bufferIndex32_last_col h hfit]; exact h1
  refine ⟨g0, g1, fun P Q => ?_⟩
  rw [accumulate32_eq P Q h0 k0 h1 k1]
  congr 1
  ring

/-- With the cell row at the last node both rows read the same samples, so the
two row weights only enter through their sum. -/
lemma accumulate32_last_row {I : IntpBilinear2} (h : I.Valid) (hfit : I.IndexFitsInt) {ix : ℤ}
    (hx0 : 0 ≤ ix) (hx1 : ix ≤ I.mXBound - 1) :
    ∃ g0 g1 : ℚ, ∀ P Q : Fin 2 → ℚ, I.accumulate32 ix (I.mYBound - 1) P Q
      = some ((Q 0 + Q 1) * (P 0 * g0 + P 1 * g1)) := by
  have hyb := h.yBound_ge
  obtain ⟨g0, h0⟩ := readF_bufferIndex32 h hfit hx0 hx1
    (show (0 : ℤ) ≤ I.mYBound - 1 by omega) le_rfl 0 0
  obtain ⟨g1, h1⟩ := readF_bufferIndex32 h hfit hx0 hx1
    (show (0 : ℤ) ≤ I.mYBound - 1 by omega) le_rfl 0 1
  have k0 : I.readF (I.bufferIndex32 ix (I.mYBound - 1) 1 0) = some g0 := by
    rw [bufferIndex32_last_row h hfit]; exact h0
  have k1 : I.readF (I.bufferIndex32 ix (I.mYBound - 1) 1 1) = some g1 := by
    rw [bufferIndex32_last_row h hfit]; exact h1
  refine ⟨g0, g1, fun P Q => ?_⟩
  rw [accumulate32_eq P Q h0 h1 k0 k1]
  congr 1
  ring

/-! ## The concrete grids -/

lemma unitGrid_valid : unitGrid.Valid :=
  ⟨[0, 2, 4, 6], rfl, by decide, by decide, by decide, by decide, by decide⟩

lemma grid3_valid : grid3.Valid :=
  ⟨[0, 1, 4, 2, 3, 5, 7, 8, 6], rfl, by decide, by decide, by decide,
    by norm_num [grid3, IntpBilinear2.ctor], by decide⟩

lemma unitGrid_iy_half : unitGrid.iy (1 / 2) = 0 := by
  norm_num [iy, yIndex, unitGrid, ctor, staticCastInt, clampToImage, Int.floor_eq_iff]

lemma unitGrid_xIndex (x : ℚ) : unitGrid.xIndex x = x := by
  simp [xIndex, unitGrid, ctor]

lemma unitGrid_yIndex (y : ℚ) : unitGrid.yIndex y = y := by
  simp [yIndex, unitGrid, ctor]

lemma unitGrid_ix_half : unitGrid.ix (1 / 2) = 0 := by
  norm_num [ix, xIndex, unitGrid, ctor, staticCastInt, clampToImage, Int.floor_eq_iff]

lemma unitGrid_ix_zero : unitGrid.ix 0 = 0 := by
  norm_num [ix, xIndex, unitGrid, ctor, staticCastInt, clampToImage]

lemma unitGrid_iy_zero : unitGrid.iy 0 = 0 := by
  norm_num [iy, yIndex, unitGrid, ctor, staticCastInt, clampToImage]

lemma unitGrid_ix_one : unitGrid.ix 1 = 1 := by
  norm_num [ix, xIndex, unitGrid, ctor, staticCastInt, clampToImage]

lemma unitGrid_iy_one : unitGrid.iy 1 = 1 := by
  norm_num [iy, yIndex, unitGrid, ctor, staticCastInt, clampToImage]

/-- The four reads of the unit grid around cell `(0, 0)`. -/
lemma unitGrid_reads {x y : ℚ} (hix : unitGrid.ix x = 0) (hiy : unitGrid.iy y = 0) :
    unitGrid.readF (unitGrid.bufferIndex (unitGrid.ix x) (unitGrid.iy y) 0 0) = some 0
      ∧ unitGrid.readF (unitGrid.bufferIndex (unitGrid.ix x) (unitGrid.iy y) 0 1) = some 2
      ∧ unitGrid.readF (unitGrid.bufferIndex (unitGrid.ix x) (unitGrid.iy y) 1 0) = some 4
      ∧ unitGrid.readF (unitGrid.bufferIndex (unitGrid.ix x) (unitGrid.iy y) 1 1) = some 6 := by
  rw [hix, hiy]
  exact ⟨rfl, rfl, rfl, rfl⟩

lemma unitGrid_evaluate {x y : ℚ} (hix : unitGrid.ix x = 0) (hiy : unitGrid.iy y = 0) :
    unitGrid.evaluate x y = some (standardBilinear x y 0 2 4 6) := by
  obtain ⟨h00, h10, h01, h11⟩ := unitGrid_reads hix hiy
  rw [evaluate_eq unitGrid_valid x y h00 h10 h01 h11, hix, hiy, unitGrid_xIndex,
    unitGrid_yIndex]
  simp

lemma unitGrid_ix_three_halves : unitGrid.ix (3 / 2) = 1 := by
  norm_num [ix, xIndex, unitGrid, ctor, staticCastInt, clampToImage, Int.floor_eq_iff]

lemma unitGrid_ix_neg_three : unitGrid.ix (-3) = 0 :=
  ix_of_lt_xMin unitGrid_valid (by decide)

lemma unitGrid_indexFitsInt : unitGrid.IndexFitsInt := by
  unfold IndexFitsInt; decide

lemma grid3_indexFitsInt : grid3.IndexFitsInt := by
  unfold IndexFitsInt; decide

lemma staticCastInt32_two_pow : staticCastInt32 2147483648 = intMin := by
  apply staticCastInt32_of_gt
  have h : staticCastInt (2147483648 : ℚ) = 2147483648 := by
    exact_mod_cast staticCastInt_intCast 2147483648
  rw [h]
  decide

lemma staticCastInt32_three_e9 : staticCastInt32 3000000000 = intMin := by
  apply staticCastInt32_of_gt
  have h : staticCastInt (3000000000 : ℚ) = 3000000000 := by
    exact_mod_cast staticCastInt_intCast 3000000000
  rw [h]
  decide

lemma unitGrid_ix32_two_pow : unitGrid.ix32 2147483648 = 0 := by
  unfold ix32
  rw [unitGrid_xIndex, staticCastInt32_two_pow]
  decide

lemma unitGrid_ix32_three_e9 : unitGrid.ix32 3000000000 = 0 := by
  unfold ix32
  rw [unitGrid_xIndex, staticCastInt32_three_e9]
  decide

lemma unitGrid_iy32_half : unitGrid.iy32 (1 / 2) = 0 := by
  rw [iy32_eq_iy unitGrid_valid (by rw [unitGrid_yIndex]; norm_num), unitGrid_iy_half]

lemma unitGrid_xMax : unitGrid.mXMax = 1 := by
  norm_num [unitGrid, ctor]

lemma unitGrid_ix32_one : unitGrid.ix32 1 = 1 := by
  rw [ix32_eq_ix unitGrid_valid (by rw [unitGrid_xIndex]; norm_num), unitGrid_ix_one]

/-- The four reads of the unit grid around cell `(0, 0)`, with the indices formed
in `int`. -/
lemma unitGrid_reads32 {x y : ℚ} (hix : unitGrid.ix32 x = 0) (hiy : unitGrid.iy32 y = 0) :
    unitGrid.readF (unitGrid.bufferIndex32 (unitGrid.ix32 x) (unitGrid.iy32 y) 0 0) = some 0
      ∧ unitGrid.readF (unitGrid.bufferIndex32 (unitGrid.ix32 x) (unitGrid.iy32 y) 0 1)
          = some 2
      ∧ unitGrid.readF (unitGrid.bufferIndex32 (unitGrid.ix32 x) (unitGrid.iy32 y) 1 0)
          = some 4
      ∧ unitGrid.readF (unitGrid.bufferIndex32 (unitGrid.ix32 x) (unitGrid.iy32 y) 1 1)
          = some 6 := by
  rw [hix, hiy]
  exact ⟨rfl, rfl, rfl, rfl⟩

lemma unitGrid_evaluate32 {x y : ℚ} (hix : unitGrid.ix32 x = 0) (hiy : unitGrid.iy32 y = 0) :
    unitGrid.evaluate32 x y = some (standardBilinear x y 0 2 4 6) := by
  obtain ⟨h00, h10, h01, h11⟩ := unitGrid_reads32 hix hiy
  rw [evaluate32_eq unitGrid_valid x y h00 h10 h01 h11, hix, hiy, unitGrid_xIndex,
    unitGrid_yIndex]
  simp

lemma bigBuffer_length : (bigBuffer.length : ℤ) = 46341 * 46341 := by
  rw [bigBuffer, List.length_replicate]
  norm_num

lemma bigGrid_valid : bigGrid.Valid :=
  ⟨bigBuffer, rfl, by decide, by decide, by decide, by decide, bigBuffer_length⟩

lemma bigGrid_xIndex (x : ℚ) : bigGrid.xIndex x = x := by
  simp [xIndex, bigGrid, ctor]

lemma bigGrid_yIndex (y : ℚ) : bigGrid.yIndex y = y := by
  simp [yIndex, bigGrid, ctor]

lemma staticCastInt32_intCast {n : ℤ} (h0 : intMin ≤ n) (h1 : n ≤ intMax) :
    staticCastInt32 (n : ℚ) = n := by
  rw [staticCastInt32_of_mem (by rw [staticCastInt_intCast]; exact h0)
    (by rw [staticCastInt_intCast]; exact h1), staticCastInt_intCast]

lemma bigGrid_ix32_last : bigGrid.ix32 46340 = 46340 := by
  unfold ix32
  rw [bigGrid_xIndex]
  have h : staticCastInt32 (46340 : ℚ) = 46340 := by
    exact_mod_cast staticCastInt32_intCast (n := 46340) (by decide) (by decide)
  rw [h]
  decide

lemma bigGrid_ix32_beyond : bigGrid.ix32 46341 = 46340 := by
  unfold ix32
  rw [bigGrid_xIndex]
  have h : staticCastInt32 (46341 : ℚ) = 46341 := by
    exact_mod_cast staticCastInt32_intCast (n := 46341) (by decide) (by decide)
  rw [h]
  decide

lemma bigGrid_iy32_last : bigGrid.iy32 46340 = 46340 := by
  unfold iy32
  rw [bigGrid_yIndex]
  have h : staticCastInt32 (46340 : ℚ) = 46340 := by
    exact_mod_cast staticCastInt32_intCast (n := 46340) (by decide) (by decide)
  rw [h]
  decide

lemma bigGrid_bufferIndex32_last :
    bigGrid.bufferIndex32 46340 46340 0 0 = -2147479016 := by
  decide

lemma bigGrid_readF_neg : bigGrid.readF (-2147479016) = none := by
  have hF : bigGrid.mF = some bigBuffer := rfl
  unfold readF
  rw [hF]
  simp

end IntpBilinear2

/-! ## The claims -/

open IntpBilinear2

/-- C3, as stated, fails: the 46341 x 46341 unit grid passes the checks of the
constructor, and at the query `(46340, 46340)` the index
`xClamp + xBound * yClamp = 46340 + 46341 * 46340 = 2147488280` exceeds `INT_MAX`;
formed in `int` it is `-2147479016`, outside `[0, xBound * yBound)`, the read
fails and the evaluator has no value. -/
theorem buffer_index_overflows_int :
    bigGrid.Valid
      ∧ ctorAsserts bigGrid.mXBound bigGrid.mYBound bigGrid.mXSpacing bigGrid.mYSpacing
          bigGrid.mF = true
      ∧ bigGrid.ix32 46340 = 46340 ∧ bigGrid.iy32 46340 = 46340
      ∧ bigGrid.bufferIndex (bigGrid.ix32 46340) (bigGrid.iy32 46340) 0 0 = 2147488280
      ∧ intMax < 2147488280
      ∧ bigGrid.bufferIndex32 (bigGrid.ix32 46340) (bigGrid.iy32 46340) 0 0 = -2147479016
      ∧ ¬ (0 ≤ bigGrid.bufferIndex32 (bigGrid.ix32 46340) (bigGrid.iy32 46340) 0 0
          ∧ bigGrid.bufferIndex32 (bigGrid.ix32 46340) (bigGrid.iy32 46340) 0 0
              < bigGrid.mXBound * bigGrid.mYBound)
      ∧ bigGrid.readF (bigGrid.bufferIndex32 (bigGrid.ix32 46340) (bigGrid.iy32 46340) 0 0)
          = none
      ∧ bigGrid.evaluate32 46340 46340 = none := by
  have hidx : bigGrid.bufferIndex32 (bigGrid.ix32 46340) (bigGrid.iy32 46340) 0 0
      = -2147479016 := by
    rw [bigGrid_ix32_last, bigGrid_iy32_last]
    exact bigGrid_bufferIndex32_last
  have hread : bigGrid.readF
      (bigGrid.bufferIndex32 (bigGrid.ix32 46340) (bigGrid.iy32 46340) 0 0) = none := by
    rw [hidx]
    exact bigGrid_readF_neg
  refine ⟨bigGrid_valid, bigGrid_valid.ctorAsserts, bigGrid_ix32_last, bigGrid_iy32_last, ?_,
    by decide, hidx, ?_, hread, ?_⟩
  · rw [bigGrid_ix32_last, bigGrid_iy32_last]
    decide
  · rw [hidx]
    intro hc
    exact absurd hc.1 (by decide)
  · rw [evaluate32_unfold]
    exact accumulate32_eq_none _ _ hread

/-- C3, amended (in-bounds indexing): for a valid interpolant whose buffer indices
fit `int` (`xBound * yBound - 1 ≤ INT_MAX`) and any query point, each of the four
buffer indices `xClamp + xBound * yClamp` formed by the accumulation loops of
`evaluate` and `evaluateDerivative` is formed without overflow, satisfies
`0 ≤ index < xBound * yBound`, and its read succeeds, so both evaluators return a
value for every query point and every order pair. The bounds do not depend on
what the integer conversion returns: they hold for the clamp of any two integers
`tx`, `ty`. -/
theorem buffer_indices_in_bounds (I : IntpBilinear2) (h : I.Valid) (hfit : I.IndexFitsInt)
    (x y : ℚ) :
    (∀ row col : Fin 2,
        I.bufferIndex32 (I.ix32 x) (I.iy32 y) row col
            = neighborClamp (I.ix32 x) ((col : ℕ) : ℤ) I.mXBound
              + I.mXBound * neighborClamp (I.iy32 y) ((row : ℕ) : ℤ) I.mYBound
          ∧ 0 ≤ I.bufferIndex32 (I.ix32 x) (I.iy32 y) row col
          ∧ I.bufferIndex32 (I.ix32 x) (I.iy32 y) row col < I.mXBound * I.mYBound
          ∧ ∃ f, I.readF (I.bufferIndex32 (I.ix32 x) (I.iy32 y) row col) = some f)
      ∧ (∃ v, I.evaluate32 x y = some v)
      ∧ (∀ xOrder yOrder : ℤ, ∃ v, I.evaluateDerivative32 xOrder yOrder x y = some v)
      ∧ ∀ (tx ty : ℤ) (row col : Fin 2),
        0 ≤ I.bufferIndex32 (clampToImage tx I.mXBound) (clampToImage ty I.mYBound) row col
          ∧ I.bufferIndex32 (clampToImage tx I.mXBound) (clampToImage ty I.mYBound) row col
              < I.mXBound * I.mYBound := by
  have hxb := h.xBound_ge
  have hyb := h.yBound_ge
  have key : ∀ (ix iy : ℤ), 0 ≤ ix → ix ≤ I.mXBound - 1 → 0 ≤ iy → iy ≤ I.mYBound - 1 →
      ∀ row col : Fin 2,
        I.bufferIndex32 ix iy row col
            = neighborClamp ix ((col : ℕ) : ℤ) I.mXBound
              + I.mXBound * neighborClamp iy ((row : ℕ) : ℤ) I.mYBound
          ∧ 0 ≤ I.bufferIndex32 ix iy row col
          ∧ I.bufferIndex32 ix iy row col < I.mXBound * I.mYBound := by
    intro ix iy hx0 hx1 hy0 hy1 row col
    rw [bufferIndex32_eq h hfit hx0 hx1 hy0 hy1]
    exact ⟨rfl, bufferIndex_nonneg h hx0 hy0 row col, bufferIndex_lt h ix iy row col⟩
  refine ⟨fun row col => ?_, evaluate32_isSome h hfit x y,
    fun xOrder yOrder => evaluateDerivative32_isSome h hfit xOrder yOrder x y,
    fun tx ty row col => ?_⟩
  · obtain ⟨k1, k2, k3⟩ := key _ _ (ix32_nonneg h x) (ix32_le h x) (iy32_nonneg h y)
      (iy32_le h y) row col
    exact ⟨k1, k2, k3, readF_bufferIndex32 h hfit (ix32_nonneg h x) (ix32_le h x)
      (iy32_nonneg h y) (iy32_le h y) row col⟩
  · exact (key _ _ (clampToImage_nonneg tx (by omega)) (clampToImage_le tx (by omega))
      (clampToImage_nonneg ty (by omega)) (clampToImage_le ty (by omega)) row col).2

/-- Witness of the amended C3 on the 3x3 grid at the query point
`(5000000000, -1000)`, whose x-index is beyond the range of `int`. -/
theorem buffer_indices_in_bounds_witness :
    grid3.Valid ∧ grid3.IndexFitsInt
      ∧ (∀ row col : Fin 2,
        0 ≤ grid3.bufferIndex32 (grid3.ix32 5000000000) (grid3.iy32 (-1000)) row col
          ∧ grid3.bufferIndex32 (grid3.ix32 5000000000) (grid3.iy32 (-1000)) row col
              < grid3.mXBound * grid3.mYBound
          ∧ ∃ f, grid3.readF
              (grid3.bufferIndex32 (grid3.ix32 5000000000) (grid3.iy32 (-1000)) row col)
                = some f)
      ∧ (∃ v, grid3.evaluate32 5000000000 (-1000) = some v)
      ∧ (∀ xOrder yOrder : ℤ,
          ∃ v, grid3.evaluateDerivative32 xOrder yOrder 5000000000 (-1000) = some v) :=
  ⟨grid3_valid, grid3_indexFitsInt,
    fun row col =>
      ((buffer_indices_in_bounds grid3 grid3_valid grid3_indexFitsInt 5000000000
        (-1000)).1 row col).2,
    (buffer_indices_in_bounds grid3 grid3_valid grid3_indexFitsInt 5000000000 (-1000)).2.1,
    (buffer_indices_in_bounds grid3 grid3_valid grid3_indexFitsInt 5000000000 (-1000)).2.2.1⟩

/-- C6 (derivative order truncation): for every interpolant, whatever its
buffer, and every query point, if at least one of the two orders is neither `0`
nor `1` then `evaluateDerivative xOrder yOrder x y` returns `0`. -/
theorem evaluateDerivative_order_truncation (I : IntpBilinear2) (xOrder yOrder : ℤ) (x y : ℚ)
    (ho : ¬ (xOrder = 0 ∨ xOrder = 1) ∨ ¬ (yOrder = 0 ∨ yOrder = 1)) :
    I.evaluateDerivative xOrder yOrder x y = some 0 := by
  unfold evaluateDerivative orderBasis
  by_cases hx0 : xOrder = 0 <;> by_cases hx1 : xOrder = 1 <;>
    by_cases hy0 : yOrder = 0 <;> by_cases hy1 : yOrder = 1 <;>
    simp [hx0, hx1, hy0, hy1] <;> omega

/-- Witness of C6: orders `(1, 2)` on the 3x3 grid. -/
theorem evaluateDerivative_order_truncation_witness :
    (¬ ((1 : ℤ) = 0 ∨ (1 : ℤ) = 1) ∨ ¬ ((2 : ℤ) = 0 ∨ (2 : ℤ) = 1))
      ∧ grid3.evaluateDerivative 1 2 (7 / 2) (1 / 8) = some 0 :=
  ⟨by decide, evaluateDerivative_order_truncation grid3 1 2 (7 / 2) (1 / 8) (by decide)⟩

/-- C11, as stated, fails beyond the range of `int`: on the 2x2 unit grid
`[0, 2, 4, 6]` (`xMax = 1`) the query `x = 2147483648` has an index that does not
fit `int`; its conversion is `INT_MIN`, so `ix = 0`, the neighbour columns are `0`
and `1`, and `evaluate 2147483648 (1/2) = 4294967298` while
`evaluate xMax (1/2) = 4`. And on the 46341 x 46341 grid, whose last buffer index
exceeds `INT_MAX`, `evaluate 46341 46340` has no value at all. -/
theorem evaluate_high_side_fails_beyond_int :
    unitGrid.Valid ∧ unitGrid.mXMax ≤ 2147483648
      ∧ staticCastInt32 (unitGrid.xIndex 2147483648) = intMin
      ∧ unitGrid.ix32 2147483648 = 0
      ∧ neighborClamp32 (unitGrid.ix32 2147483648) 0 unitGrid.mXBound = 0
      ∧ unitGrid.mXBound - 1 = 1
      ∧ unitGrid.evaluate32 2147483648 (1 / 2) = some 4294967298
      ∧ unitGrid.evaluate32 unitGrid.mXMax (1 / 2) = some 4
      ∧ ¬ (∃ v : ℚ, unitGrid.evaluate32 2147483648 (1 / 2) = some v
          ∧ unitGrid.evaluate32 unitGrid.mXMax (1 / 2) = some v)
      ∧ bigGrid.Valid ∧ bigGrid.mXMax ≤ 46341
      ∧ bigGrid.evaluate32 46341 46340 = none := by
  have hbig : unitGrid.evaluate32 2147483648 (1 / 2) = some 4294967298 := by
    rw [unitGrid_evaluate32 unitGrid_ix32_two_pow unitGrid_iy32_half]
    norm_num [standardBilinear]
  have hmax : unitGrid.evaluate32 unitGrid.mXMax (1 / 2) = some 4 := by
    rw [unitGrid_xMax]
    have h00 : unitGrid.readF
        (unitGrid.bufferIndex32 (unitGrid.ix32 1) (unitGrid.iy32 (1 / 2)) 0 0) = some 2 := by
      rw [unitGrid_ix32_one, unitGrid_iy32_half]; rfl
    have h10 : unitGrid.readF
        (unitGrid.bufferIndex32 (unitGrid.ix32 1) (unitGrid.iy32 (1 / 2)) 0 1) = some 2 := by
      rw [unitGrid_ix32_one, unitGrid_iy32_half]; rfl
    have h01 : unitGrid.readF
        (unitGrid.bufferIndex32 (unitGrid.ix32 1) (unitGrid.iy32 (1 / 2)) 1 0) = some 6 := by
      rw [unitGrid_ix32_one, unitGrid_iy32_half]; rfl
    have h11 : unitGrid.readF
        (unitGrid.bufferIndex32 (unitGrid.ix32 1) (unitGrid.iy32 (1 / 2)) 1 1) = some 6 := by
      rw [unitGrid_ix32_one, unitGrid_iy32_half]; rfl
    rw [evaluate32_eq unitGrid_valid 1 (1 / 2) h00 h10 h01 h11, unitGrid_ix32_one,
      unitGrid_iy32_half, unitGrid_xIndex, unitGrid_yIndex]
    norm_num [standardBilinear]
  refine ⟨unitGrid_valid, by rw [unitGrid_xMax]; norm_num, ?_, unitGrid_ix32_two_pow, ?_,
    by decide, hbig, hmax, ?_, bigGrid_valid, by norm_num [bigGrid, ctor], ?_⟩
  · rw [unitGrid_xIndex]
    exact staticCastInt32_two_pow
  · rw [unitGrid_ix32_two_pow]
    decide
  · rintro ⟨v, h1, h2⟩
    rw [hbig] at h1
    rw [hmax] at h2
    have h3 : (4294967298 : ℚ) = 4 := (Option.some.inj h1).trans (Option.some.inj h2).symm
    norm_num at h3
  · rw [evaluate32_unfold]
    apply accumulate32_eq_none
    rw [bigGrid_ix32_beyond, bigGrid_iy32_last, bigGrid_bufferIndex32_last]
    exact bigGrid_readF_neg

/-- C11, amended (high-side edge repeat): for a valid interpolant whose buffer
indices fit `int` (`xBound * yBound - 1 ≤ INT_MAX`), every `x ≥ xMax` whose index
`(x - xMin) / xSpacing` is below `2^31` and every `y`, both neighbour columns
resolve to `xBound - 1` and `evaluate x y = evaluate xMax y`; symmetrically, for
every `y ≥ yMax` whose index `(y - yMin) / ySpacing` is below `2^31` and every `x`,
both neighbour rows resolve to `yBound - 1` and `evaluate x y = evaluate x yMax`.
Here `xMax = xMin + xSpacing * (xBound - 1)` and likewise `yMax`. -/
theorem evaluate_high_side_repeat (I : IntpBilinear2) (h : I.Valid) (hfit : I.IndexFitsInt) :
    I.mXMax = I.mXMin + I.mXSpacing * ((I.mXBound - 1 : ℤ) : ℚ)
      ∧ I.mYMax = I.mYMin + I.mYSpacing * ((I.mYBound - 1 : ℤ) : ℚ)
      ∧ (∀ x y : ℚ, I.mXMax ≤ x → (x - I.mXMin) / I.mXSpacing < 2147483648 →
          neighborClamp32 (I.ix32 x) 0 I.mXBound = I.mXBound - 1
            ∧ neighborClamp32 (I.ix32 x) 1 I.mXBound = I.mXBound - 1
            ∧ ∃ v : ℚ, I.evaluate32 x y = some v ∧ I.evaluate32 I.mXMax y = some v)
      ∧ (∀ x y : ℚ, I.mYMax ≤ y → (y - I.mYMin) / I.mYSpacing < 2147483648 →
          neighborClamp32 (I.iy32 y) 0 I.mYBound = I.mYBound - 1
            ∧ neighborClamp32 (I.iy32 y) 1 I.mYBound = I.mYBound - 1
            ∧ ∃ v : ℚ, I.evaluate32 x y = some v ∧ I.evaluate32 x I.mYMax = some v) := by
  have hxb := h.xBound_ge
  have hyb := h.yBound_ge
  have hxle := hfit.xBound_le h
  have hyle := hfit.yBound_le h
  have hxmax : I.xIndex I.mXMax < 2147483648 := by
    rw [(xIndex_mem_of_mem h (by rw [h.xMax_eq]; nlinarith [h.xSpacing_pos,
      (by exact_mod_cast (show (0 : ℤ) ≤ I.mXBound - 1 by omega) :
        (0 : ℚ) ≤ ((I.mXBound - 1 : ℤ) : ℚ))]) le_rfl).2.antisymm
      (xIndex_ge_of_ge_xMax h le_rfl)]
    have : I.mXBound - 1 < 2147483648 := by unfold intMax at hxle; omega
    exact_mod_cast this
  have hymax : I.yIndex I.mYMax < 2147483648 := by
    rw [(yIndex_mem_of_mem h (by rw [h.yMax_eq]; nlinarith [h.ySpacing_pos,
      (by exact_mod_cast (show (0 : ℤ) ≤ I.mYBound - 1 by omega) :
        (0 : ℚ) ≤ ((I.mYBound - 1 : ℤ) : ℚ))]) le_rfl).2.antisymm
      (yIndex_ge_of_ge_yMax h le_rfl)]
    have : I.mYBound - 1 < 2147483648 := by unfold intMax at hyle; omega
    exact_mod_cast this
  refine ⟨h.xMax_eq, h.yMax_eq, ?_, ?_⟩
  · intro x y hx hr
    rw [← xIndex_eq_div h] at hr
    have hix := ix32_of_ge_xMax h hx hr
    have hixm := ix32_of_ge_xMax h le_rfl hxmax
    obtain ⟨g0, g1, hacc⟩ := accumulate32_last_col h hfit (iy32_nonneg h y) (iy32_le h y)
    rw [hix]
    refine ⟨neighborClamp32_last (by omega) hxle le_rfl zero_le_one,
      neighborClamp32_last (by omega) hxle zero_le_one le_rfl,
      I.blendRow ![1, I.yIndex y - (I.iy32 y : ℚ)] 0 * g0
        + I.blendRow ![1, I.yIndex y - (I.iy32 y : ℚ)] 1 * g1, ?_, ?_⟩
    · rw [evaluate32_unfold, hix, hacc, blendRow_zero h, blendRow_one h]
      congr 1
      simp
    · rw [evaluate32_unfold, hixm, hacc, blendRow_zero h, blendRow_one h]
      congr 1
      simp
  · intro x y hy hr
    rw [← yIndex_eq_div h] at hr
    have hiy := iy32_of_ge_yMax h hy hr
    have hiym := iy32_of_ge_yMax h le_rfl hymax
    obtain ⟨g0, g1, hacc⟩ := accumulate32_last_row h hfit (ix32_nonneg h x) (ix32_le h x)
    rw [hiy]
    refine ⟨neighborClamp32_last (by omega) hyle le_rfl zero_le_one,
      neighborClamp32_last (by omega) hyle zero_le_one le_rfl,
      I.blendRow ![1, I.xIndex x - (I.ix32 x : ℚ)] 0 * g0
        + I.blendRow ![1, I.xIndex x - (I.ix32 x : ℚ)] 1 * g1, ?_, ?_⟩
    · rw [evaluate32_unfold, hiy, hacc, blendRow_zero h, blendRow_one h]
      congr 1
      simp
    · rw [evaluate32_unfold, hiym, hacc, blendRow_zero h, blendRow_one h]
      congr 1
      simp

/-- Witness of the amended C11 on the 3x3 grid (`xMax = 5`, `yMax = 0`): `x = 7`
against `xMax` at `y = 1/8`, and `y = 3` against `yMax` at `x = 7/2`. -/
theorem evaluate_high_side_repeat_witness :
    grid3.Valid ∧ grid3.IndexFitsInt ∧ grid3.mXMax ≤ 7
      ∧ (7 - grid3.mXMin) / grid3.mXSpacing < 2147483648
      ∧ grid3.mYMax ≤ 3 ∧ (3 - grid3.mYMin) / grid3.mYSpacing < 2147483648
      ∧ (∃ v : ℚ, grid3.evaluate32 7 (1 / 8) = some v
          ∧ grid3.evaluate32 grid3.mXMax (1 / 8) = some v)
      ∧ (∃ v : ℚ, grid3.evaluate32 (7 / 2) 3 = some v
          ∧ grid3.evaluate32 (7 / 2) grid3.mYMax = some v) :=
  ⟨grid3_valid, grid3_indexFitsInt, by norm_num [grid3, ctor], by norm_num [grid3, ctor],
    by norm_num [grid3, ctor], by norm_num [grid3, ctor],
    ((evaluate_high_side_repeat grid3 grid3_valid grid3_indexFitsInt).2.2.1 7 (1 / 8)
      (by norm_num [grid3, ctor]) (by norm_num [grid3, ctor])).2.2,
    ((evaluate_high_side_repeat grid3 grid3_valid grid3_indexFitsInt).2.2.2 (7 / 2) 3
      (by norm_num [grid3, ctor]) (by norm_num [grid3, ctor])).2.2⟩

/-- C12 (concrete scenario): on the interpolant built with `xBound = yBound = 2`,
`xMin = yMin = 0`, `xSpacing = ySpacing = 1` and the row-major buffer
`[0, 2, 4, 6]`, `evaluate (1/2) (1/2) = 3`, `evaluate 0 0 = 0`, `evaluate 1 1 = 6`,
`evaluateDerivative 1 0 (1/2) (1/2) = 2` and `evaluateDerivative 0 1 (1/2) (1/2) = 4`. -/
theorem concrete_scenario :
    unitGrid = IntpBilinear2.ctor 2 2 0 1 0 1 (some [0, 2, 4, 6])
      ∧ unitGrid.evaluate (1 / 2) (1 / 2) = some 3
      ∧ unitGrid.evaluate 0 0 = some 0
      ∧ unitGrid.evaluate 1 1 = some 6
      ∧ unitGrid.evaluateDerivative 1 0 (1 / 2) (1 / 2) = some 2
      ∧ unitGrid.evaluateDerivative 0 1 (1 / 2) (1 / 2) = some 4 := by
  refine ⟨rfl, ?_, ?_, ?_, ?_, ?_⟩
  · rw [unitGrid_evaluate unitGrid_ix_half unitGrid_iy_half]
    norm_num [standardBilinear]
  · rw [unitGrid_evaluate unitGrid_ix_zero unitGrid_iy_zero]
    norm_num [standardBilinear]
  · have h11 : unitGrid.readF (unitGrid.bufferIndex (unitGrid.ix 1) (unitGrid.iy 1) 0 0)
        = some 6 := by rw [unitGrid_ix_one, unitGrid_iy_one]; rfl
    have h21 : unitGrid.readF (unitGrid.bufferIndex (unitGrid.ix 1) (unitGrid.iy 1) 0 1)
        = some 6 := by rw [unitGrid_ix_one, unitGrid_iy_one]; rfl
    have h12 : unitGrid.readF (unitGrid.bufferIndex (unitGrid.ix 1) (unitGrid.iy 1) 1 0)
        = some 6 := by rw [unitGrid_ix_one, unitGrid_iy_one]; rfl
    have h22 : unitGrid.readF (unitGrid.bufferIndex (unitGrid.ix 1) (unitGrid.iy 1) 1 1)
        = some 6 := by rw [unitGrid_ix_one, unitGrid_iy_one]; rfl
    rw [evaluate_eq unitGrid_valid 1 1 h11 h21 h12 h22]
    unfold standardBilinear
    congr 1
    ring
  · obtain ⟨h00, h10, h01, h11⟩ := unitGrid_reads unitGrid_ix_half unitGrid_iy_half
    rw [evaluateDerivative_one_zero unitGrid_valid _ _ h00 h10 h01 h11, unitGrid_yIndex,
      unitGrid_iy_half]
    norm_num [unitGrid, ctor]
  · obtain ⟨h00, h10, h01, h11⟩ := unitGrid_reads unitGrid_ix_half unitGrid_iy_half
    rw [evaluateDerivative_zero_one unitGrid_valid _ _ h00 h10 h01 h11, unitGrid_xIndex,
      unitGrid_ix_half]
    norm_num [unitGrid, ctor]

/-- C13 (construction validation): the two checks of the constructor pass exactly
when `xBound ≥ 2`, `yBound ≥ 2`, the buffer reference is present, `xSpacing > 0`
and `ySpacing > 0`; in that case construction returns the interpolant, and in
every other case it fails with the message of the assertion. -/
theorem construct_validation (xBound yBound : ℤ) (xMin xSpacing yMin ySpacing : ℚ)
    (F : Option (List ℚ)) :
    (ctorAsserts xBound yBound xSpacing ySpacing F = true
        ↔ 2 ≤ xBound ∧ 2 ≤ yBound ∧ F ≠ none ∧ 0 < xSpacing ∧ 0 < ySpacing)
      ∧ (IntpBilinear2.construct xBound yBound xMin xSpacing yMin ySpacing F
            = Except.ok (IntpBilinear2.ctor xBound yBound xMin xSpacing yMin ySpacing F)
          ↔ 2 ≤ xBound ∧ 2 ≤ yBound ∧ F ≠ none ∧ 0 < xSpacing ∧ 0 < ySpacing)
      ∧ (IntpBilinear2.construct xBound yBound xMin xSpacing yMin ySpacing F
            = Except.error "Invalid input."
          ↔ ¬ (2 ≤ xBound ∧ 2 ≤ yBound ∧ F ≠ none ∧ 0 < xSpacing ∧ 0 < ySpacing)) := by
  have hsome : F.isSome = true ↔ F ≠ none := by
    cases F <;> simp
  refine ⟨?_, ?_, ?_⟩
  · unfold ctorAsserts
    simp only [Bool.and_eq_true, decide_eq_true_eq, hsome, ge_iff_le, gt_iff_lt]
    tauto
  · unfold IntpBilinear2.construct LogAssert
    by_cases h1 : (decide (xBound ≥ 2) && decide (yBound ≥ 2) && F.isSome) = true
    · by_cases h2 : (decide (xSpacing > 0) && decide (ySpacing > 0)) = true
      · have h1' := h1
        have h2' := h2
        simp only [Bool.and_eq_true, decide_eq_true_eq, hsome, ge_iff_le, gt_iff_lt] at h1' h2'
        simp only [h1, h2, if_true]
        constructor
        · intro _
          tauto
        · intro _
          rfl
      · have h2' := h2
        simp only [Bool.and_eq_true, decide_eq_true_eq, gt_iff_lt] at h2'
        simp only [h1, h2, if_true]
        constructor
        · intro hc
          cases hc
        · intro hc
          exact absurd ⟨hc.2.2.2.1, hc.2.2.2.2⟩ h2'
    · have h1' := h1
      simp only [Bool.and_eq_true, decide_eq_true_eq, hsome, ge_iff_le] at h1'
      simp only [h1]
      constructor
      · intro hc
        cases hc
      · intro hc
        exact absurd ⟨⟨hc.1, hc.2.1⟩, hc.2.2.1⟩ h1'
  · unfold IntpBilinear2.construct LogAssert
    by_cases h1 : (decide (xBound ≥ 2) && decide (yBound ≥ 2) && F.isSome) = true
    · by_cases h2 : (decide (xSpacing > 0) && decide (ySpacing > 0)) = true
      · have h1' := h1
        have h2' := h2
        simp only [Bool.and_eq_true, decide_eq_true_eq, hsome, ge_iff_le, gt_iff_lt] at h1' h2'
        simp only [h1, h2, if_true]
        constructor
        · intro hc
          cases hc
        · intro hc
          exact absurd ⟨h1'.1.1, h1'.1.2, h1'.2, h2'.1, h2'.2⟩ hc
      · have h2' := h2
        simp only [Bool.and_eq_true, decide_eq_true_eq, gt_iff_lt] at h2'
        simp only [h1, h2, if_true]
        constructor
        · intro _ hc
          exact h2' ⟨hc.2.2.2.1, hc.2.2.2.2⟩
        · intro _
          rfl
    · have h1' := h1
      simp only [Bool.and_eq_true, decide_eq_true_eq, hsome, ge_iff_le] at h1'
      simp only [h1]
      constructor
      · intro _ hc
        exact h1' ⟨⟨hc.1, hc.2.1⟩, hc.2.2.1⟩
      · intro _
        rfl

/-- C14, as stated, fails beyond the range of `int`: the index value
`t = 2147483648` does not fit `int`, its conversion is `INT_MIN`, and with
`bound = 2` the code's cell index is `0` while the floor of `t` clamped to
`[0, bound - 1]` is `1`. -/
theorem clampToImage_ne_floorClamp_beyond_int :
    (1 : ℤ) ≤ 2 ∧ staticCastInt32 2147483648 = intMin
      ∧ clampToImage (staticCastInt32 2147483648) 2 = 0
      ∧ floorClamp 2147483648 2 = 1
      ∧ clampToImage (staticCastInt32 2147483648) 2 ≠ floorClamp 2147483648 2 := by
  have hc : clampToImage (staticCastInt32 2147483648) 2 = 0 := by
    rw [staticCastInt32_two_pow]
    decide
  have hf : floorClamp 2147483648 2 = 1 := by
    have hfl : ⌊(2147483648 : ℚ)⌋ = 2147483648 := by
      exact_mod_cast Int.floor_intCast (2147483648 : ℤ)
    unfold floorClamp
    rw [hfl]
    decide
  refine ⟨by decide, staticCastInt32_two_pow, hc, hf, ?_⟩
  rw [hc, hf]
  decide

/-- C14, amended (index resolution against floor-then-clamp): for every
`bound ≥ 1` and every index value `t` below `2^31`, the code's cell index (convert
`t` to `int`, which truncates toward zero, set to `0` if negative, else to
`bound - 1` if `≥ bound`) equals the floor of `t` clamped to `[0, bound - 1]`, also
for negative non-integer `t`, where the truncation and the floor differ, and for
`t` below `INT_MIN`. -/
theorem clampToImage_eq_floorClamp (t : ℚ) (bound : ℤ) (hb : 1 ≤ bound)
    (ht : t < 2147483648) :
    clampToImage (staticCastInt32 t) bound = floorClamp t bound := by
  rw [clampToImage_staticCastInt32 hb ht]
  unfold floorClamp
  by_cases h0 : 0 ≤ t
  · have hf : 0 ≤ ⌊t⌋ := Int.floor_nonneg.mpr h0
    rw [staticCastInt_of_nonneg h0]
    unfold clampToImage
    split_ifs with h1 h2
    · omega
    · rw [min_eq_right (by omega), max_eq_right (by omega)]
    · rw [min_eq_left (by omega), max_eq_right hf]
  · have ht0 : t < 0 := not_le.mp h0
    have hf : ⌊t⌋ < 0 := Int.floor_lt.mpr (by exact_mod_cast ht0)
    rw [clampToImage_of_nonpos (staticCastInt_nonpos ht0) hb,
      max_eq_left ((min_le_left _ _).trans hf.le)]

/-- Witness of the amended C14 at `t = -1/2`, `bound = 3`: the truncation is `0`,
the floor is `-1`, and both policies give the index `0`. -/
theorem clampToImage_eq_floorClamp_witness :
    (1 : ℤ) ≤ 3 ∧ (-1 / 2 : ℚ) < 2147483648 ∧ staticCastInt32 (-1 / 2) = 0
      ∧ ⌊(-1 / 2 : ℚ)⌋ = -1
      ∧ clampToImage (staticCastInt32 (-1 / 2)) 3 = floorClamp (-1 / 2) 3 := by
  have hs : staticCastInt (-1 / 2 : ℚ) = 0 := by
    norm_num [staticCastInt, Int.ceil_eq_iff]
  have hs32 : staticCastInt32 (-1 / 2 : ℚ) = 0 := by
    rw [staticCastInt32_of_mem (by rw [hs]; decide) (by rw [hs]; decide), hs]
  exact ⟨by decide, by norm_num, hs32, by norm_num [Int.floor_eq_iff],
    clampToImage_eq_floorClamp (-1 / 2) 3 (by decide) (by norm_num)⟩

/-- C15, as stated, fails: on the 2x2 unit grid (`xMax = 1`) the query `x = 3/2`
lies outside `[xMin, xMax]`, resolves to `ix = 1` and has the fractional offset
`dx = 1/2`, inside `[0, 1)`. -/
theorem offset_outside_range_fails :
    unitGrid.Valid ∧ unitGrid.mXMax < 3 / 2 ∧ unitGrid.ix (3 / 2) = 1
      ∧ unitGrid.xIndex (3 / 2) - (unitGrid.ix (3 / 2) : ℚ) = 1 / 2
      ∧ ¬ (¬ (unitGrid.mXMin ≤ 3 / 2 ∧ (3 / 2 : ℚ) ≤ unitGrid.mXMax) →
          ¬ (0 ≤ unitGrid.xIndex (3 / 2) - (unitGrid.ix (3 / 2) : ℚ)
            ∧ unitGrid.xIndex (3 / 2) - (unitGrid.ix (3 / 2) : ℚ) < 1)) := by
  have hmax : unitGrid.mXMax < 3 / 2 := by norm_num [unitGrid, ctor]
  have hdx : unitGrid.xIndex (3 / 2) - (unitGrid.ix (3 / 2) : ℚ) = 1 / 2 := by
    rw [unitGrid_xIndex, unitGrid_ix_three_halves]
    norm_num
  refine ⟨unitGrid_valid, hmax, unitGrid_ix_three_halves, hdx, ?_⟩
  intro hclaim
  refine hclaim (fun hin => absurd hin.2 (not_le.mpr hmax)) ?_
  rw [hdx]
  constructor <;> norm_num

/-- C15, amended: for a valid interpolant, a query with `x < xMin` has `dx < 0`
and a query with `x ≥ xMax + xSpacing` has `dx ≥ 1`, so in both cases the
fractional offset `dx = xIndex - ix` lies outside `[0, 1)`; for
`xMax < x < xMax + xSpacing` it equals `(x - xMax) / xSpacing` and lies strictly
between `0` and `1`. Likewise for `dy`, with `yMin`, `yMax` and `ySpacing`. -/
theorem offset_outside_range (I : IntpBilinear2) (h : I.Valid) :
    (∀ x : ℚ, x < I.mXMin → I.xIndex x - (I.ix x : ℚ) < 0)
      ∧ (∀ x : ℚ, I.mXMax + I.mXSpacing ≤ x → 1 ≤ I.xIndex x - (I.ix x : ℚ))
      ∧ (∀ x : ℚ, I.mXMax < x → x < I.mXMax + I.mXSpacing →
          I.xIndex x - (I.ix x : ℚ) = (x - I.mXMax) / I.mXSpacing
            ∧ 0 < I.xIndex x - (I.ix x : ℚ) ∧ I.xIndex x - (I.ix x : ℚ) < 1)
      ∧ (∀ y : ℚ, y < I.mYMin → I.yIndex y - (I.iy y : ℚ) < 0)
      ∧ (∀ y : ℚ, I.mYMax + I.mYSpacing ≤ y → 1 ≤ I.yIndex y - (I.iy y : ℚ))
      ∧ (∀ y : ℚ, I.mYMax < y → y < I.mYMax + I.mYSpacing →
          I.yIndex y - (I.iy y : ℚ) = (y - I.mYMax) / I.mYSpacing
            ∧ 0 < I.yIndex y - (I.iy y : ℚ) ∧ I.yIndex y - (I.iy y : ℚ) < 1) := by
  have hsx := h.xSpacing_pos
  have hsy := h.ySpacing_pos
  refine ⟨?_, ?_, ?_, ?_, ?_, ?_⟩
  · intro x hx
    rw [ix_of_lt_xMin h hx]
    simpa using xIndex_neg h hx
  · intro x hx
    rw [xOffset_of_gt_xMax h (by linarith), le_div_iff₀ hsx]
    linarith
  · intro x hx0 hx1
    refine ⟨xOffset_of_gt_xMax h hx0.le, ?_⟩
    rw [xOffset_of_gt_xMax h hx0.le]
    exact ⟨div_pos (by linarith) hsx, by rw [div_lt_iff₀ hsx]; linarith⟩
  · intro y hy
    rw [iy_of_lt_yMin h hy]
    simpa using yIndex_neg h hy
  · intro y hy
    rw [yOffset_of_gt_yMax h (by linarith), le_div_iff₀ hsy]
    linarith
  · intro y hy0 hy1
    refine ⟨yOffset_of_gt_yMax h hy0.le, ?_⟩
    rw [yOffset_of_gt_yMax h hy0.le]
    exact ⟨div_pos (by linarith) hsy, by rw [div_lt_iff₀ hsy]; linarith⟩

/-- Witness of the amended C15 on the 3x3 grid (`xMin = 1`, `xMax = 5`,
`xSpacing = 2`): `x = -4` has `dx < 0`, `x = 8` has `dx ≥ 1`, and `x = 6` has
`dx = (6 - xMax) / xSpacing` with `0 < dx < 1`. -/
theorem offset_outside_range_witness :
    grid3.Valid ∧ (-4 : ℚ) < grid3.mXMin ∧ grid3.mXMax + grid3.mXSpacing ≤ 8
      ∧ grid3.mXMax < 6 ∧ (6 : ℚ) < grid3.mXMax + grid3.mXSpacing
      ∧ grid3.xIndex (-4) - (grid3.ix (-4) : ℚ) < 0
      ∧ 1 ≤ grid3.xIndex 8 - (grid3.ix 8 : ℚ)
      ∧ (grid3.xIndex 6 - (grid3.ix 6 : ℚ) = (6 - grid3.mXMax) / grid3.mXSpacing
          ∧ 0 < grid3.xIndex 6 - (grid3.ix 6 : ℚ) ∧ grid3.xIndex 6 - (grid3.ix 6 : ℚ) < 1) :=
  ⟨grid3_valid, by decide, by norm_num [grid3, ctor], by norm_num [grid3, ctor],
    by norm_num [grid3, ctor],
    (offset_outside_range grid3 grid3_valid).1 (-4) (by decide),
    (offset_outside_range grid3 grid3_valid).2.1 8 (by norm_num [grid3, ctor]),
    (offset_outside_range grid3 grid3_valid).2.2.1 6 (by norm_num [grid3, ctor])
      (by norm_num [grid3, ctor])⟩

/-- C16 (in-range queries): for a valid interpolant and `xMin ≤ x ≤ xMax`, the
converted index already lies in `[0, xBound - 1]`, so the clamp leaves it alone
and `ix = floor ((x - xMin) / xSpacing)`, and the fractional offset satisfies
`0 ≤ dx < 1`; likewise `iy` and `0 ≤ dy < 1` for `yMin ≤ y ≤ yMax`. -/
theorem in_range_index (I : IntpBilinear2) (h : I.Valid) :
    (∀ x : ℚ, I.mXMin ≤ x → x ≤ I.mXMax →
        0 ≤ staticCastInt (I.xIndex x) ∧ staticCastInt (I.xIndex x) ≤ I.mXBound - 1
          ∧ I.ix x = staticCastInt (I.xIndex x)
          ∧ I.ix x = ⌊(x - I.mXMin) / I.mXSpacing⌋
          ∧ 0 ≤ I.xIndex x - (I.ix x : ℚ) ∧ I.xIndex x - (I.ix x : ℚ) < 1)
      ∧ (∀ y : ℚ, I.mYMin ≤ y → y ≤ I.mYMax →
        0 ≤ staticCastInt (I.yIndex y) ∧ staticCastInt (I.yIndex y) ≤ I.mYBound - 1
          ∧ I.iy y = staticCastInt (I.yIndex y)
          ∧ I.iy y = ⌊(y - I.mYMin) / I.mYSpacing⌋
          ∧ 0 ≤ I.yIndex y - (I.iy y : ℚ) ∧ I.yIndex y - (I.iy y : ℚ) < 1) := by
  constructor
  · intro x hx0 hx1
    obtain ⟨hu0, hu1⟩ := xIndex_mem_of_mem h hx0 hx1
    obtain ⟨hc0, hc1⟩ := staticCastInt_mem_of_mem hu0 hu1
    have hix : I.ix x = ⌊I.xIndex x⌋ := clampToImage_floor hu0 hu1
    refine ⟨hc0, hc1, ?_, ?_, ?_, ?_⟩
    · rw [hix, staticCastInt_of_nonneg hu0]
    · rw [hix, xIndex_eq_div h]
    · rw [hix]
      exact sub_nonneg.mpr (Int.floor_le _)
    · rw [hix]
      have := Int.lt_floor_add_one (I.xIndex x)
      linarith
  · intro y hy0 hy1
    obtain ⟨hv0, hv1⟩ := yIndex_mem_of_mem h hy0 hy1
    obtain ⟨hc0, hc1⟩ := staticCastInt_mem_of_mem hv0 hv1
    have hiy : I.iy y = ⌊I.yIndex y⌋ := clampToImage_floor hv0 hv1
    refine ⟨hc0, hc1, ?_, ?_, ?_, ?_⟩
    · rw [hiy, staticCastInt_of_nonneg hv0]
    · rw [hiy, yIndex_eq_div h]
    · rw [hiy]
      exact sub_nonneg.mpr (Int.floor_le _)
    · rw [hiy]
      have := Int.lt_floor_add_one (I.yIndex y)
      linarith

/-- Witness of C16 on the 3x3 grid (`[xMin, xMax] = [1, 5]`, `[yMin, yMax] = [-1, 0]`)
at `x = 7/2` and `y = -1/8`. -/
theorem in_range_index_witness :
    grid3.Valid ∧ grid3.mXMin ≤ 7 / 2 ∧ (7 / 2 : ℚ) ≤ grid3.mXMax
      ∧ grid3.mYMin ≤ -1 / 8 ∧ (-1 / 8 : ℚ) ≤ grid3.mYMax
      ∧ (0 ≤ staticCastInt (grid3.xIndex (7 / 2))
          ∧ staticCastInt (grid3.xIndex (7 / 2)) ≤ grid3.mXBound - 1
          ∧ grid3.ix (7 / 2) = staticCastInt (grid3.xIndex (7 / 2))
          ∧ grid3.ix (7 / 2) = ⌊((7 / 2 : ℚ) - grid3.mXMin) / grid3.mXSpacing⌋
          ∧ 0 ≤ grid3.xIndex (7 / 2) - (grid3.ix (7 / 2) : ℚ)
          ∧ grid3.xIndex (7 / 2) - (grid3.ix (7 / 2) : ℚ) < 1)
      ∧ (0 ≤ staticCastInt (grid3.yIndex (-1 / 8))
          ∧ staticCastInt (grid3.yIndex (-1 / 8)) ≤ grid3.mYBound - 1
          ∧ grid3.iy (-1 / 8) = staticCastInt (grid3.yIndex (-1 / 8))
          ∧ grid3.iy (-1 / 8) = ⌊((-1 / 8 : ℚ) - grid3.mYMin) / grid3.mYSpacing⌋
          ∧ 0 ≤ grid3.yIndex (-1 / 8) - (grid3.iy (-1 / 8) : ℚ)
          ∧ grid3.yIndex (-1 / 8) - (grid3.iy (-1 / 8) : ℚ) < 1) :=
  ⟨grid3_valid, by norm_num [grid3, ctor], by norm_num [grid3, ctor],
    by norm_num [grid3, ctor], by norm_num [grid3, ctor],
    (in_range_index grid3 grid3_valid).1 (7 / 2)
      (by norm_num [grid3, ctor]) (by norm_num [grid3, ctor]),
    (in_range_index grid3 grid3_valid).2 (-1 / 8)
      (by norm_num [grid3, ctor]) (by norm_num [grid3, ctor])⟩

/-- C17, as stated, fails: on the 2x2 unit grid `[0, 2, 4, 6]` the query
`x = -3 < xMin` resolves to `ix = 0`, and the neighbour column for `col = 1` is
`1`, not `0`: the sample read there for `y = 1/2` is `F[1] = 2`, not `F[0] = 0`. -/
theorem low_side_column_not_repeated :
    unitGrid.Valid ∧ (-3 : ℚ) < unitGrid.mXMin ∧ unitGrid.ix (-3) = 0
      ∧ neighborClamp (unitGrid.ix (-3)) 1 unitGrid.mXBound = 1
      ∧ unitGrid.readF (unitGrid.bufferIndex (unitGrid.ix (-3)) (unitGrid.iy (1 / 2)) 0 1)
          = some 2
      ∧ ¬ (neighborClamp (unitGrid.ix (-3)) 0 unitGrid.mXBound = 0
          ∧ neighborClamp (unitGrid.ix (-3)) 1 unitGrid.mXBound = 0) := by
  have hix : unitGrid.ix (-3) = 0 := ix_of_lt_xMin unitGrid_valid (by decide)
  have hn : neighborClamp (unitGrid.ix (-3)) 1 unitGrid.mXBound = 1 := by
    rw [hix]; decide
  refine ⟨unitGrid_valid, by decide, hix, hn, (unitGrid_reads hix unitGrid_iy_half).2.1, ?_⟩
  rintro ⟨-, h1⟩
  rw [hn] at h1
  exact absurd h1 (by decide)

/-- C17, amended: for a valid interpolant and every `x < xMin`, the cell index
`ix` is clamped to `0` and the accumulation uses the two columns of the first
cell: the neighbour column index is `0` for `col = 0` and `1` for `col = 1`, so
the buffer index read for `(row, col)` is `col + xBound * yClamp`. -/
theorem low_side_columns (I : IntpBilinear2) (h : I.Valid) (x : ℚ) (hx : x < I.mXMin) :
    I.ix x = 0
      ∧ neighborClamp (I.ix x) 0 I.mXBound = 0
      ∧ neighborClamp (I.ix x) 1 I.mXBound = 1
      ∧ ∀ (iy : ℤ) (row col : Fin 2),
          I.bufferIndex (I.ix x) iy row col
            = ((col : ℕ) : ℤ) + I.mXBound * neighborClamp iy ((row : ℕ) : ℤ) I.mYBound := by
  have hxb := h.xBound_ge
  have hix := ix_of_lt_xMin h hx
  rw [hix]
  refine ⟨rfl, ?_, ?_, ?_⟩
  · unfold neighborClamp
    split_ifs <;> omega
  · unfold neighborClamp
    split_ifs <;> omega
  · intro iy row col
    rw [bufferIndex_zero_col h, neighborClamp_eq_min]

/-- Witness of the amended C17 on the 2x2 unit grid at `x = -3`. -/
theorem low_side_columns_witness :
    unitGrid.Valid ∧ (-3 : ℚ) < unitGrid.mXMin
      ∧ unitGrid.ix (-3) = 0
      ∧ neighborClamp (unitGrid.ix (-3)) 0 unitGrid.mXBound = 0
      ∧ neighborClamp (unitGrid.ix (-3)) 1 unitGrid.mXBound = 1
      ∧ ∀ (iy : ℤ) (row col : Fin 2),
          unitGrid.bufferIndex (unitGrid.ix (-3)) iy row col
            = ((col : ℕ) : ℤ)
              + unitGrid.mXBound * neighborClamp iy ((row : ℕ) : ℤ) unitGrid.mYBound :=
  ⟨unitGrid_valid, by decide, low_side_columns unitGrid unitGrid_valid (-3) (by decide)⟩

/-- C18, as stated, fails beyond the range of `int`: on the 2x2 unit grid
`[0, 2, 4, 6]` (`xMax = 1`) the query `x = 3000000000` has an index that does not
fit `int`; its conversion is `INT_MIN`, so `ix = 0` and
`evaluateDerivative 1 0 3000000000 (1/2)` is the first cell's slope `2`, not `0`.
And on the 46341 x 46341 grid, whose last buffer index exceeds `INT_MAX`,
`evaluateDerivative 1 0 46341 46340` has no value at all. -/
theorem evaluateDerivative_high_side_fails_beyond_int :
    unitGrid.Valid
      ∧ ((unitGrid.mXBound - 1 : ℤ) : ℚ) ≤ (3000000000 - unitGrid.mXMin) / unitGrid.mXSpacing
      ∧ staticCastInt32 (unitGrid.xIndex 3000000000) = intMin
      ∧ unitGrid.ix32 3000000000 = 0
      ∧ unitGrid.evaluateDerivative32 1 0 3000000000 (1 / 2) = some 2
      ∧ unitGrid.evaluateDerivative32 1 0 3000000000 (1 / 2) ≠ some 0
      ∧ bigGrid.Valid
      ∧ ((bigGrid.mXBound - 1 : ℤ) : ℚ) ≤ (46341 - bigGrid.mXMin) / bigGrid.mXSpacing
      ∧ bigGrid.evaluateDerivative32 1 0 46341 46340 = none := by
  have hval : unitGrid.evaluateDerivative32 1 0 3000000000 (1 / 2) = some 2 := by
    obtain ⟨h00, h10, h01, h11⟩ := unitGrid_reads32 unitGrid_ix32_three_e9 unitGrid_iy32_half
    rw [evaluateDerivative32_one_zero unitGrid_valid _ _ h00 h10 h01 h11, unitGrid_yIndex,
      unitGrid_iy32_half]
    norm_num [unitGrid, ctor]
  refine ⟨unitGrid_valid, by norm_num [unitGrid, ctor], ?_, unitGrid_ix32_three_e9, hval, ?_,
    bigGrid_valid, by norm_num [bigGrid, ctor], ?_⟩
  · rw [unitGrid_xIndex]
    exact staticCastInt32_three_e9
  · rw [hval]
    intro hc
    have h3 : (2 : ℚ) = 0 := Option.some.inj hc
    norm_num at h3
  · rw [evaluateDerivative32_unfold (orderBasis_one _ _) (orderBasis_zero _ _)]
    have hnone : bigGrid.accumulate32 (bigGrid.ix32 46341) (bigGrid.iy32 46340)
        (bigGrid.blendRow ![0, 1])
        (bigGrid.blendRow ![1, bigGrid.yIndex 46340 - (bigGrid.iy32 46340 : ℚ)]) = none := by
      apply accumulate32_eq_none
      rw [bigGrid_ix32_beyond, bigGrid_iy32_last, bigGrid_bufferIndex32_last]
      exact bigGrid_readF_neg
    rw [hnone]
    rfl

/-- C18, amended (high-side derivative vanishes): for a valid interpolant whose
buffer indices fit `int` (`xBound * yBound - 1 ≤ INT_MAX`) and every `x` with
`xBound - 1 ≤ (x - xMin) / xSpacing < 2^31`, that is `x ≥ xMax` with an index that
fits `int`, every `y` and every `yOrder`, `evaluateDerivative 1 yOrder x y = 0`;
symmetrically `evaluateDerivative xOrder 1 x y = 0` for every `y` with
`yBound - 1 ≤ (y - yMin) / ySpacing < 2^31`, every `x` and every `xOrder`. (On the
low side the same evaluator returns the edge cell's slope.) -/
theorem evaluateDerivative_high_side_zero (I : IntpBilinear2) (h : I.Valid)
    (hfit : I.IndexFitsInt) :
    (∀ (x y : ℚ) (yOrder : ℤ), ((I.mXBound - 1 : ℤ) : ℚ) ≤ (x - I.mXMin) / I.mXSpacing →
        (x - I.mXMin) / I.mXSpacing < 2147483648 →
        I.mXMax ≤ x ∧ I.evaluateDerivative32 1 yOrder x y = some 0)
      ∧ (∀ (x y : ℚ) (xOrder : ℤ), ((I.mYBound - 1 : ℤ) : ℚ) ≤ (y - I.mYMin) / I.mYSpacing →
        (y - I.mYMin) / I.mYSpacing < 2147483648 →
        I.mYMax ≤ y ∧ I.evaluateDerivative32 xOrder 1 x y = some 0)
      ∧ (∀ x : ℚ, ((I.mXBound - 1 : ℤ) : ℚ) ≤ (x - I.mXMin) / I.mXSpacing ↔ I.mXMax ≤ x)
      ∧ (∀ y : ℚ, ((I.mYBound - 1 : ℤ) : ℚ) ≤ (y - I.mYMin) / I.mYSpacing ↔ I.mYMax ≤ y) := by
  have hsx := h.xSpacing_pos
  have hsy := h.ySpacing_pos
  have hxiff : ∀ x : ℚ,
      ((I.mXBound - 1 : ℤ) : ℚ) ≤ (x - I.mXMin) / I.mXSpacing ↔ I.mXMax ≤ x := by
    intro x
    rw [le_div_iff₀ hsx, h.xMax_eq]
    constructor <;> intro hle <;> linarith
  have hyiff : ∀ y : ℚ,
      ((I.mYBound - 1 : ℤ) : ℚ) ≤ (y - I.mYMin) / I.mYSpacing ↔ I.mYMax ≤ y := by
    intro y
    rw [le_div_iff₀ hsy, h.yMax_eq]
    constructor <;> intro hle <;> linarith
  refine ⟨?_, ?_, hxiff, hyiff⟩
  · intro x y yOrder hx hr
    have hx' : I.mXMax ≤ x := (hxiff x).mp hx
    rw [← xIndex_eq_div h] at hr
    have hix := ix32_of_ge_xMax h hx' hr
    refine ⟨hx', ?_⟩
    obtain ⟨g0, g1, hacc⟩ := accumulate32_last_col h hfit (iy32_nonneg h y) (iy32_le h y)
    cases hV : orderBasis yOrder (I.yIndex y - (I.iy32 y : ℚ)) I.mInvYSpacing with
    | none => exact evaluateDerivative32_of_none_y 1 x hV
    | some q =>
      obtain ⟨V, yMult⟩ := q
      rw [evaluateDerivative32_unfold (orderBasis_one _ _) hV, hix, hacc,
        blendRow_zero h, blendRow_one h]
      simp
  · intro x y xOrder hy hr
    have hy' : I.mYMax ≤ y := (hyiff y).mp hy
    rw [← yIndex_eq_div h] at hr
    have hiy := iy32_of_ge_yMax h hy' hr
    refine ⟨hy', ?_⟩
    obtain ⟨g0, g1, hacc⟩ := accumulate32_last_row h hfit (ix32_nonneg h x) (ix32_le h x)
    cases hU : orderBasis xOrder (I.xIndex x - (I.ix32 x : ℚ)) I.mInvXSpacing with
    | none => exact evaluateDerivative32_of_none_x 1 y hU
    | some p =>
      obtain ⟨U, xMult⟩ := p
      rw [evaluateDerivative32_unfold hU (orderBasis_one _ _), hiy, hacc,
        blendRow_zero h, blendRow_one h]
      simp

/-- Witness of the amended C18 on the 2x2 unit grid `[0, 2, 4, 6]`
(`xMax = yMax = 1`): at `x = 3` the x-derivative is `0` for `yOrder = 0` and
`yOrder = 1`, at `y = 3` the y-derivative is `0`, whereas on the low side, at
`x = -3`, the x-derivative is the edge cell's slope `2`. -/
theorem evaluateDerivative_high_side_zero_witness :
    unitGrid.Valid ∧ unitGrid.IndexFitsInt
      ∧ ((unitGrid.mXBound - 1 : ℤ) : ℚ) ≤ (3 - unitGrid.mXMin) / unitGrid.mXSpacing
      ∧ (3 - unitGrid.mXMin) / unitGrid.mXSpacing < 2147483648
      ∧ ((unitGrid.mYBound - 1 : ℤ) : ℚ) ≤ (3 - unitGrid.mYMin) / unitGrid.mYSpacing
      ∧ (3 - unitGrid.mYMin) / unitGrid.mYSpacing < 2147483648
      ∧ unitGrid.evaluateDerivative32 1 0 3 (1 / 2) = some 0
      ∧ unitGrid.evaluateDerivative32 1 1 3 (1 / 2) = some 0
      ∧ unitGrid.evaluateDerivative32 0 1 (1 / 2) 3 = some 0
      ∧ unitGrid.evaluateDerivative32 1 0 (-3) (1 / 2) = some 2 := by
  have hx : ((unitGrid.mXBound - 1 : ℤ) : ℚ) ≤ (3 - unitGrid.mXMin) / unitGrid.mXSpacing := by
    norm_num [unitGrid, ctor]
  have hxr : (3 - unitGrid.mXMin) / unitGrid.mXSpacing < 2147483648 := by
    norm_num [unitGrid, ctor]
  have hy : ((unitGrid.mYBound - 1 : ℤ) : ℚ) ≤ (3 - unitGrid.mYMin) / unitGrid.mYSpacing := by
    norm_num [unitGrid, ctor]
  have hyr : (3 - unitGrid.mYMin) / unitGrid.mYSpacing < 2147483648 := by
    norm_num [unitGrid, ctor]
  refine ⟨unitGrid_valid, unitGrid_indexFitsInt, hx, hxr, hy, hyr,
    ((evaluateDerivative_high_side_zero unitGrid unitGrid_valid unitGrid_indexFitsInt).1
      3 (1 / 2) 0 hx hxr).2,
    ((evaluateDerivative_high_side_zero unitGrid unitGrid_valid unitGrid_indexFitsInt).1
      3 (1 / 2) 1 hx hxr).2,
    ((evaluateDerivative_high_side_zero unitGrid unitGrid_valid unitGrid_indexFitsInt).2.1
      (1 / 2) 3 0 hy hyr).2, ?_⟩
  have hix : unitGrid.ix32 (-3) = 0 := by
    rw [ix32_eq_ix unitGrid_valid (by rw [unitGrid_xIndex]; norm_num), unitGrid_ix_neg_three]
  obtain ⟨h00, h10, h01, h11⟩ := unitGrid_reads32 hix unitGrid_iy32_half
  rw [evaluateDerivative32_one_zero unitGrid_valid _ _ h00 h10 h01 h11, unitGrid_yIndex,
    unitGrid_iy32_half]
  norm_num [unitGrid, ctor]

end GTEngine
